import Mathlib

/-!
# pdf2letterexpress: margin geometry, page rewriting and the strategy pipeline

A shallow embedding of `internal/processor` (`pdf.go`, `pdf_simple.go`,
`margin_creator.go`), `internal/utils` (`file.go`, `validation.go`) and
`internal/cli` (`args.go`).

Modelling conventions.

* A Go `float64` is modelled by a rational (`ℚ`).  In the inset geometry
  (`insetScale`, `insetTransform`) every operation rounds its exact result to
  the nearest float64 (`roundF64`: 53 significant bits, ties to even).  The
  exponent range is not bounded, so overflow, underflow, infinities and NaN are
  outside the model, and so is a division by a zero page side; on a page whose
  sides are float64 values above the double margin no operation of the inset
  geometry leaves the normal range.  In the page rewriting of
  `margin_creator.go` and in the pixel sizes arithmetic is exact.  `int(x)` is
  truncation toward zero.
* The constants `MarginMM`, `PointsPerMM` and `MarginPoints` are untyped Go
  constants: a constant expression such as `2 * MarginPoints` is exact, and is
  rounded once, where it meets a `float64` operand.
* A Go `string` and a `[]byte` are both modelled by `String`.
* A Go `error` is the chain of its messages, outermost first; `nil` is `none`.
* A run-time panic is `none` where a function returns an `Option`.  Where a
  function returns a pair with an error (`scaleAllPages`,
  `transformPagesWithMargins`, the strategies, `ProcessPDF`) a panic stands in
  the error position as the value `runtimePanic`, which no wrapping produces;
  every caller hands it on as it is, together with the files the deferred calls
  leave behind.
* Logging (`logrus`) has no effect on results and is left out, except where
  a function computes values only in order to log them: these are returned.
* The collaborators outside the repository (pdfcpu, `os`, `os/exec`, and
  `path/filepath` where the processor names its temporary files) are parameters
  of the model, collected in `Env`.
* Where a result depends on what `path/filepath`, `strings` or logrus compute
  (`internal/utils`, `internal/cli`), these library functions are modelled, for
  Unix paths, from their documentation.
-/

namespace Pdf2LetterExpress

/-! ## Numbers and formatting -/

/-- Conversion `int(x)` of a float: truncation toward zero. -/
def truncToInt (x : ℚ) : ℤ :=
  if 0 ≤ x then ⌊x⌋ else ⌈x⌉

/-- Nearest integer, ties to even: the rounding `fmt` applies to the digits it drops. -/
def roundHalfEven (x : ℚ) : ℤ :=
  let f := ⌊x⌋
  let r := x - f
  if r < 1 / 2 then f
  else if 1 / 2 < r then f + 1
  else if f % 2 = 0 then f else f + 1

/-- The float64 nearest to `x`, ties to even: the result of a `float64`
operation whose exact result is `x`, and the value of a constant `x` converted
to `float64`.  With `2 ^ e ≤ |x| < 2 ^ (e + 1)` the float64 values around `x` are
the multiples of `2 ^ (e - 52)`. -/
def roundF64 (x : ℚ) : ℚ :=
  if x = 0 then 0
  else
    let e := Int.log 2 |x|
    let q := (2 : ℚ) ^ (e - 52)
    (roundHalfEven (x / q) : ℚ) * q

/-- Left padding of a digit string with `'0'` up to width `n`. -/
def padZeros (n : Nat) (s : String) : String :=
  String.mk (List.replicate (n - s.length) '0') ++ s

/-- The verb `%.<prec>f` of `fmt.Sprintf` (`%f` is `%.6f`). -/
def fmtFloat (prec : Nat) (x : ℚ) : String :=
  let n := (roundHalfEven (|x| * 10 ^ prec)).toNat
  let ip := n / 10 ^ prec
  let fp := n % 10 ^ prec
  (if x < 0 then "-" else "") ++ toString ip ++
    (if prec = 0 then "" else "." ++ padZeros prec (toString fp))

/-- The verb `%d` of `fmt.Sprintf`. -/
def fmtInt (n : ℤ) : String := toString n

/-! ## Errors -/

/-- A Go error: the messages of the wrapping chain, outermost first. -/
abbrev GoError := List String

/-- The error `fmt.Errorf(msg)` without a wrapped cause. -/
def errorf (msg : String) : GoError := [msg]

/-- The error `fmt.Errorf(msg + ": %w", cause)`. -/
def wrapf (msg : String) (cause : GoError) : GoError := msg :: cause

/-- Whether `inner` can be recovered from `e` by unwrapping (`errors.Is`). -/
def GoError.Contains (e inner : GoError) : Prop := inner <:+ e

instance (e inner : GoError) : Decidable (GoError.Contains e inner) := by
  unfold GoError.Contains; infer_instance

/-- The value that stands for a run-time panic (an index out of range) in the
error position of a result. -/
def runtimePanic : GoError := ["panic: runtime error: index out of range [0] with length 0"]

/-! ## Constants (`pdf.go`, lines 14-18) -/

/-- The margin in millimetres. -/
def MarginMM : ℚ := 5.0

/-- Points per millimetre. -/
def PointsPerMM : ℚ := 2.834645669

/-- The margin in points. -/
def MarginPoints : ℚ := MarginMM * PointsPerMM

/-! ## The pdfcpu object model, as far as the processor inspects it -/

/-- A pdfcpu `types.Object`.  `Nil` is the nil interface value; `Other`
stands for every object type the processor never matches on. -/
inductive Object where
  | Nil
  | Float (v : ℚ)
  | Integer (n : ℤ)
  | Array (elems : List Object)
  | StreamDict (Length : ℤ) (Content : String)
  | IndirectRef (objNr gen : ℤ)
  | Other (kind : String)

/-- A pdfcpu `types.Dict`: a finite map from keys to objects. -/
abbrev Dict := String → Option Object

/-- Lookup `d.Find(key)`: the object and the `found` flag. -/
def Dict.Find (d : Dict) (key : String) : Option Object := d key

/-- The update `d.Update(key, value)`: a nil value leaves the entry alone. -/
def Dict.Update (d : Dict) (key : String) (value : Object) : Dict :=
  match value with
  | .Nil => d
  | v => fun k => if k = key then some v else d k

/-- A pdfcpu `types.Dim`. -/
structure Dim where
  Width : ℚ
  Height : ℚ

/-- What the call `ctx.PageDims()` does: it returns the dimensions of the
pages, or an error, or it panics.  It panics on a context whose page count is
not established and whose page tree has a page: the slice it fills has
`ctx.PageCount` entries. -/
inductive PageDimsResult where
  | ok (dims : List Dim)
  | error (err : GoError)
  | panic

/-- A pdfcpu `model.Context`: the page dictionaries `ctx.PageDict` can reach,
in page order (`ctx.PageCount` of them), and what `ctx.PageDims()` does. -/
structure Context where
  pages : List Dict
  pageDims : PageDimsResult

/-- The field `ctx.PageCount`. -/
def Context.PageCount (ctx : Context) : ℤ := ctx.pages.length

/-- The call `ctx.PageDict(pageNum, false)`: page numbers are 1-based. -/
def Context.PageDict (ctx : Context) (pageNum : ℤ) : Except GoError Dict :=
  if pageNum ≤ 0 ∨ ctx.PageCount < pageNum then .error (errorf "pdfcpu: page not found")
  else
    match ctx.pages.get? (pageNum - 1).toNat with
    | some d => .ok d
    | none => .error (errorf "pdfcpu: page not found")

/-- Write-back of a mutated page dictionary (dictionaries are Go maps, so
the processor mutates them in place). -/
def Context.setPageDict (ctx : Context) (pageNum : ℤ) (d : Dict) : Context :=
  { ctx with pages := ctx.pages.set (pageNum - 1).toNat d }

/-! ## Page rewriting (`margin_creator.go`) -/

/-- The type assertions `obj.(types.Float)` and `obj.(types.Integer)`,
followed by the conversion to `float64`. -/
def numericValue : Object → Option ℚ
  | .Float v => some v
  | .Integer n => some (n : ℚ)
  | _ => none

/-- `extractMediaBoxValues` (lines 149-189): the four results and the error.
The result is `none` where Go panics, on an index out of range. -/
def extractMediaBoxValues (mediaBoxArray : List Object) :
    Option (ℚ × ℚ × ℚ × ℚ × Option GoError) :=
  match mediaBoxArray.get? 0 with
  | none => none
  | some e0 =>
    match numericValue e0 with
    | none => some (0, 0, 0, 0, some (errorf "invalid x0 value"))
    | some x0 =>
      match mediaBoxArray.get? 1 with
      | none => none
      | some e1 =>
        match numericValue e1 with
        | none => some (0, 0, 0, 0, some (errorf "invalid y0 value"))
        | some y0 =>
          match mediaBoxArray.get? 2 with
          | none => none
          | some e2 =>
            match numericValue e2 with
            | none => some (0, 0, 0, 0, some (errorf "invalid x1 value"))
            | some x1 =>
              match mediaBoxArray.get? 3 with
              | none => none
              | some e3 =>
                match numericValue e3 with
                | none => some (0, 0, 0, 0, some (errorf "invalid y1 value"))
                | some y1 => some (x0, y0, x1, y1, none)

/-- `getPageContent` (lines 192-216): the string and the error. -/
def getPageContent (ctx : Context) (pageNum : ℤ) : String × Option GoError :=
  match ctx.PageDict pageNum with
  | .error err => ("", some err)
  | .ok pageDict =>
    match pageDict.Find "Contents" with
    | none => ("", none)
    | some (.StreamDict _ _) => ("% Existing content preserved\n", none)
    | some (.Array _) => ("% Multiple content streams preserved\n", none)
    | some _ => ("", none)

/-- `updatePageContent` (lines 219-240): the context afterwards and the error. -/
def updatePageContent (ctx : Context) (pageNum : ℤ) (newContent : String) :
    Context × Option GoError :=
  match ctx.PageDict pageNum with
  | .error err => (ctx, some err)
  | .ok pageDict =>
    let streamDict := Object.StreamDict (newContent.utf8ByteSize : ℤ) newContent
    (ctx.setPageDict pageNum (pageDict.Update "Contents" streamDict), none)

/-- The content stream head built at line 119:
`fmt.Sprintf("q\n%f 0 0 %f %f %f cm\n", 1.0, 1.0, marginPoints, marginPoints)`. -/
def translateOperator (marginPoints : ℚ) : String :=
  "q\n" ++ fmtFloat 6 1.0 ++ " 0 0 " ++ fmtFloat 6 1.0 ++ " " ++ fmtFloat 6 marginPoints ++
    " " ++ fmtFloat 6 marginPoints ++ " cm\n"

/-- `addMarginsToPage` (lines 67-146): the context afterwards and the error;
`none` where Go panics. -/
def addMarginsToPage (ctx : Context) (pageNum : ℤ) (marginPoints : ℚ) :
    Option (Context × Option GoError) :=
  match ctx.PageDict pageNum with
  | .error err => some (ctx, some (wrapf "failed to get page dict" err))
  | .ok pageDict =>
    match pageDict.Find "MediaBox" with
    | none => some (ctx, some (errorf ("no MediaBox found on page " ++ fmtInt pageNum)))
    | some .Nil => some (ctx, some (errorf ("no MediaBox found on page " ++ fmtInt pageNum)))
    | some (.Array mediaBoxArray) =>
      if mediaBoxArray.length < 4 then
        some (ctx, some (errorf ("invalid MediaBox on page " ++ fmtInt pageNum)))
      else
        match extractMediaBoxValues mediaBoxArray with
        | none => none
        | some (_, _, _, _, some err) =>
          some (ctx, some (wrapf "failed to extract MediaBox values" err))
        | some (x0, y0, x1, y1, none) =>
          let newX0 := x0
          let newY0 := y0
          let newX1 := x1 + (2 * marginPoints)
          let newY1 := y1 + (2 * marginPoints)
          let newMediaBox := Object.Array
            [.Float newX0, .Float newY0, .Float newX1, .Float newY1]
          let ctx1 := ctx.setPageDict pageNum (pageDict.Update "MediaBox" newMediaBox)
          let contentStream := translateOperator marginPoints
          let existingContent :=
            match getPageContent ctx1 pageNum with
            | (_, some _) => ""
            | (s, none) => s
          let newContent := contentStream ++ existingContent ++ "\nQ\n"
          match updatePageContent ctx1 pageNum newContent with
          | (ctx2, some err) => some (ctx2, some (wrapf "failed to update page content" err))
          | (ctx2, none) => some (ctx2, none)
    | some _ => some (ctx, some (errorf ("invalid MediaBox on page " ++ fmtInt pageNum)))

/-! ## Inset geometry (`pdf.go`, `pdf_simple.go`) -/

/-- The values `applyContentTransformation` and `scaleAllPages` compute for
one page and hand to the logger. -/
structure InsetTransform where
  scale : ℚ
  translateX : ℚ
  translateY : ℚ

/-- The scale of `pdf.go` lines 96-105 and 160-171, `pdf_simple.go` lines 136-146,
in float64 arithmetic.  The constant `2 * MarginPoints` is rounded once; in
`applyContentTransformation` the margin is first stored in a `float64` variable
and then doubled, which gives the same float64. -/
def insetScale (pageDim : Dim) : ℚ :=
  let availableWidth := roundF64 (pageDim.Width - roundF64 (2 * MarginPoints))
  let availableHeight := roundF64 (pageDim.Height - roundF64 (2 * MarginPoints))
  let scaleX := roundF64 (availableWidth / pageDim.Width)
  let scaleY := roundF64 (availableHeight / pageDim.Height)
  if scaleY < scaleX then scaleY else scaleX

/-- The scale and translation of `pdf.go` lines 157-177, `pdf_simple.go` lines 136-152,
in float64 arithmetic. -/
def insetTransform (pageDim : Dim) : InsetTransform :=
  let scale := insetScale pageDim
  let scaledWidth := roundF64 (pageDim.Width * scale)
  let scaledHeight := roundF64 (pageDim.Height * scale)
  let translateX := roundF64 (roundF64 (pageDim.Width - scaledWidth) / 2)
  let translateY := roundF64 (roundF64 (pageDim.Height - scaledHeight) / 2)
  { scale := scale, translateX := translateX, translateY := translateY }

/-- `applyContentTransformation` (`pdf.go` lines 155-191): the logged
transform and the returned error. -/
def applyContentTransformation (_ctx : Context) (_pageNum : ℤ) (pageDim : Dim) :
    InsetTransform × Option GoError :=
  (insetTransform pageDim, none)

/-- `scalePageContent` (`pdf.go` lines 78-122): the logged scale, if the
function gets that far, and the returned error.  `none` where Go panics
(inside `ctx.PageDims()`, or a page number below 1 indexes `dims` out of range). -/
def scalePageContent (ctx : Context) (pageNr : ℤ) : Option (Option ℚ × Option GoError) :=
  match ctx.pageDims with
  | .panic => none
  | .error err => some (none, some (wrapf "failed to get page dimensions" err))
  | .ok dims =>
    if (dims.length : ℤ) < pageNr then
      some (none, some (errorf ("page " ++ fmtInt pageNr ++ " does not exist")))
    else if pageNr - 1 < 0 then none
    else
      match dims.get? (pageNr - 1).toNat with
      | none => none
      | some pageDim => some (some (insetScale pageDim), none)

/-- The loop of `transformPagesWithMargins` over the 0-based page indices
`ks`: a page without dimensions is skipped, the first error stops the loop. -/
def transformPagesLoop (ctx : Context) (dims : List Dim) :
    List ℕ → List InsetTransform → List InsetTransform × Option GoError
  | [], acc => (acc, none)
  | k :: ks, acc =>
    match dims.get? k with
    | none => transformPagesLoop ctx dims ks acc
    | some pageDim =>
      match applyContentTransformation ctx ((k : ℤ) + 1) pageDim with
      | (t, some err) =>
        (acc ++ [t], some (wrapf ("failed to transform page " ++ fmtInt ((k : ℤ) + 1)) err))
      | (t, none) => transformPagesLoop ctx dims ks (acc ++ [t])

/-- `transformPagesWithMargins` (`pdf.go` lines 124-153): the transforms
logged, in page order, and the returned error; `runtimePanic` where
`ctx.PageDims()` panics. -/
def transformPagesWithMargins (ctx : Context) : List InsetTransform × Option GoError :=
  match ctx.pageDims with
  | .panic => ([], some runtimePanic)
  | .error err => ([], some (wrapf "failed to get page dimensions" err))
  | .ok dims => transformPagesLoop ctx dims (List.range ctx.pages.length) []

/-- `scaleAllPages` (`pdf_simple.go` lines 113-171): the transforms logged,
in page order, and the returned error; `runtimePanic` where `ctx.PageDims()`
panics.  The context is not modified. -/
def scaleAllPages (ctx : Context) : List InsetTransform × Option GoError :=
  match ctx.pageDims with
  | .panic => ([], some runtimePanic)
  | .error err => ([], some (wrapf "failed to get page dimensions" err))
  | .ok dims =>
    ((List.range ctx.pages.length).filterMap
      (fun k => (dims.get? k).map insetTransform), none)

/-! ## Files, external commands and the strategies -/

/-- The file system: the bytes stored at each path, `none` where no file exists. -/
abbrev FS := String → Option String

/-- The file system after `path` holds `bytes`. -/
def FS.write (fs : FS) (path : String) (bytes : String) : FS :=
  fun p => if p = path then some bytes else fs p

/-- The file system after `os.Remove(path)`. -/
def FS.remove (fs : FS) (path : String) : FS :=
  fun p => if p = path then none else fs p

/-- The collaborators outside the repository. -/
structure Env where
  /-- The lookup `exec.LookPath(name)`. -/
  lookPath : String → Except GoError String
  /-- Running a command to completion with the given argument vector
  (`CombinedOutput`, `Run`): the file system afterwards and the error. -/
  run : List String → FS → FS × Option GoError
  /-- The error of `os.Create(path)`, `none` when the file can be created. -/
  createErr : String → FS → Option GoError
  /-- The parser `api.ReadContext` on the bytes of a file. -/
  readContext : String → Except GoError Context
  /-- The serialiser `api.WriteContext`: the bytes it writes and its error. -/
  writeContext : Context → String × Option GoError
  /-- The function `filepath.Dir`. -/
  dir : String → String
  /-- The function `filepath.Join` of two elements. -/
  join : String → String → String

/-- The call `os.Open(path)`: the error, `none` when the file exists
(a file that exists can be opened; permissions are not modelled). -/
def osOpen (fs : FS) (path : String) : Option GoError :=
  match fs path with
  | some _ => none
  | none => some (errorf ("open " ++ path ++ ": no such file or directory"))

/-- The call `os.Create(path)`: on success the file exists and is empty,
on failure the file system is unchanged. -/
def osCreate (env : Env) (fs : FS) (path : String) : FS × Option GoError :=
  match env.createErr path fs with
  | some err => (fs, some err)
  | none => (fs.write path "", none)

/-- What a reader opened on `path` delivers: the bytes stored there when it is read. -/
def readAll (fs : FS) (path : String) : String := (fs path).getD ""

/-! The local values of `CreateMarginsForLetterXpress` (lines 344-362); none
of them depends on an argument of the function. -/

/-- Line 345. -/
def targetWidthMM : ℚ := 210.0

/-- Line 346. -/
def targetHeightMM : ℚ := 297.0

/-- Line 349. -/
def contentWidthMM : ℚ := targetWidthMM - (2 * MarginMM)

/-- Line 350. -/
def contentHeightMM : ℚ := targetHeightMM - (2 * MarginMM)

/-- Line 353. -/
def dpi : ℚ := 300.0

/-- Line 356. -/
def finalWidthPx : ℤ := truncToInt (targetWidthMM * dpi / 25.4)

/-- Line 357. -/
def finalHeightPx : ℤ := truncToInt (targetHeightMM * dpi / 25.4)

/-- Line 360. -/
def contentWidthPx : ℤ := truncToInt (contentWidthMM * dpi / 25.4)

/-- Line 361. -/
def contentHeightPx : ℤ := truncToInt (contentHeightMM * dpi / 25.4)

/-- Line 362. -/
def marginPx : ℤ := truncToInt (MarginMM * dpi / 25.4)

/-- The argument vector of step 1 (lines 382-389): render and resize the first page. -/
def letterXpressCmd1 (inputFile tempContentFile : String) : List String :=
  ["convert", "-density", fmtFloat 0 dpi, "-background", "white", "-flatten",
   "-resize", fmtInt contentWidthPx ++ "x" ++ fmtInt contentHeightPx ++ "!",
   inputFile ++ "[0]", tempContentFile]

/-- The argument vector of step 2 (lines 399-406): the white canvas and the composite. -/
def letterXpressCmd2 (tempContentFile tempA4File : String) : List String :=
  ["convert", "-size", fmtInt finalWidthPx ++ "x" ++ fmtInt finalHeightPx, "xc:white",
   tempContentFile, "-geometry", "+" ++ fmtInt marginPx ++ "+" ++ fmtInt marginPx,
   "-composite", tempA4File]

/-- The argument vector of step 3 (lines 416-423): the final encode. -/
def letterXpressCmd3 (tempA4File outputFile : String) : List String :=
  ["convert", tempA4File, "-density", fmtFloat 0 dpi, "-compress", "jpeg", "-quality", "95",
   "-define", "pdf:page-size=a4", outputFile]

/-- `CreateMarginsForLetterXpress` (`margin_creator.go` lines 330-443). -/
def CreateMarginsForLetterXpress (env : Env) (inputFile outputFile : String) (fs : FS) :
    FS × Option GoError :=
  match env.lookPath "convert" with
  | .error err => (fs, some (wrapf "imagemagick not available" err))
  | .ok _ =>
    let tempDir := env.dir outputFile
    let tempContentFile := env.join tempDir "temp_content.png"
    let tempA4File := env.join tempDir "temp_a4_canvas.png"
    match env.run (letterXpressCmd1 inputFile tempContentFile) fs with
    | (fs1, some err) => (fs1, some (wrapf "pdf content conversion failed" err))
    | (fs1, none) =>
      match env.run (letterXpressCmd2 tempContentFile tempA4File) fs1 with
      | (fs2, some err) => (fs2, some (wrapf "a4 canvas creation failed" err))
      | (fs2, none) =>
        match env.run (letterXpressCmd3 tempA4File outputFile) fs2 with
        | (fs3, some err) => (fs3, some (wrapf "final pdf creation failed" err))
        | (fs3, none) => ((fs3.remove tempContentFile).remove tempA4File, none)

/-- `CreateMargins` (`margin_creator.go` lines 446-449). -/
def CreateMargins (env : Env) (inputFile outputFile : String) (fs : FS) : FS × Option GoError :=
  CreateMarginsForLetterXpress env inputFile outputFile fs

/-- The call `strings.Replace(s, old, new, 1)` on the characters of `s`,
for a non-empty `old`: the first occurrence is replaced. -/
def replaceFirst (old new : List Char) : List Char → List Char
  | [] => []
  | c :: cs =>
    if old.isPrefixOf (c :: cs) then new ++ (c :: cs).drop old.length
    else c :: replaceFirst old new cs

/-- The border percentage `int(MarginMM * 2)` (line 304). -/
def marginPercent : ℤ := truncToInt (MarginMM * 2)

/-- `CreateMarginsWithImageMagick` (`margin_creator.go` lines 269-327). -/
def CreateMarginsWithImageMagick (env : Env) (inputFile outputFile : String) (fs : FS) :
    FS × Option GoError :=
  match env.lookPath "convert" with
  | .error err => (fs, some (wrapf "imagemagick not available" err))
  | .ok _ =>
    let tempDir := env.dir outputFile
    let tempImagePattern := env.join tempDir "temp_page_%d.png"
    match env.run ["convert", "-density", "300", inputFile, tempImagePattern] fs with
    | (fs1, some err) => (fs1, some (wrapf "pdf to image conversion failed" err))
    | (fs1, none) =>
      match env.run ["convert", tempImagePattern, "-bordercolor", "white", "-border",
          fmtInt marginPercent ++ "%x" ++ fmtInt marginPercent ++ "%", "-density", "300",
          outputFile] fs1 with
      | (fs2, some err) => (fs2, some (wrapf "image to pdf conversion failed" err))
      | (fs2, none) =>
        let cleanupPattern :=
          String.mk (replaceFirst "%d".data "*".data tempImagePattern.data)
        ((env.run ["rm", "-f", cleanupPattern] fs2).1, none)

/-- `CreateMarginsWithPDFCPU`, the page loop (lines 43-48) over the 0-based
page indices `ks`; `none` where Go panics. -/
def addMarginsLoop (marginPoints : ℚ) : List ℕ → Context → Option (Context × Option GoError)
  | [], ctx => some (ctx, none)
  | k :: ks, ctx =>
    match addMarginsToPage ctx ((k : ℤ) + 1) marginPoints with
    | none => none
    | some (ctx1, some err) =>
      some (ctx1, some (wrapf ("failed to add margins to page " ++ fmtInt ((k : ℤ) + 1)) err))
    | some (ctx1, none) => addMarginsLoop marginPoints ks ctx1

/-- `CreateMarginsWithPDFCPU` (`margin_creator.go` lines 17-64); `none` where Go panics. -/
def CreateMarginsWithPDFCPU (env : Env) (inputFile outputFile : String) (fs : FS) :
    Option (FS × Option GoError) :=
  match osOpen fs inputFile with
  | some err => some (fs, some (wrapf "failed to open input file" err))
  | none =>
    match env.readContext (readAll fs inputFile) with
    | .error err => some (fs, some (wrapf "failed to read PDF context" err))
    | .ok ctx =>
      let marginPoints := MarginMM * PointsPerMM
      match addMarginsLoop marginPoints (List.range ctx.pages.length) ctx with
      | none => none
      | some (_, some err) => some (fs, some err)
      | some (ctx1, none) =>
        match osCreate env fs outputFile with
        | (fs1, some err) => some (fs1, some (wrapf "failed to create output file" err))
        | (fs1, none) =>
          match env.writeContext ctx1 with
          | (bytes, some err) =>
            some (fs1.write outputFile bytes, some (wrapf "failed to write PDF" err))
          | (bytes, none) => some (fs1.write outputFile bytes, none)

/-- `addMarginsUsingNUp` (`pdf.go` lines 193-236).  A panic in
`transformPagesWithMargins` unwinds through it: the deferred `Close` calls run
and the output file stays as `os.Create` left it. -/
def addMarginsUsingNUp (env : Env) (inputFile outputFile : String) (fs : FS) :
    FS × Option GoError :=
  match osOpen fs inputFile with
  | some err => (fs, some (wrapf "failed to open input file" err))
  | none =>
    match osCreate env fs outputFile with
    | (fs1, some err) => (fs1, some (wrapf "failed to create output file" err))
    | (fs1, none) =>
      match env.readContext (readAll fs1 inputFile) with
      | .error err => (fs1, some (wrapf "failed to read PDF context" err))
      | .ok ctx =>
        match transformPagesWithMargins ctx with
        | (_, some err) =>
          if err = runtimePanic then (fs1, some runtimePanic)
          else (fs1, some (wrapf "failed to transform pages" err))
        | (_, none) =>
          match env.writeContext ctx with
          | (bytes, some err) =>
            (fs1.write outputFile bytes, some (wrapf "failed to write transformed PDF" err))
          | (bytes, none) => (fs1.write outputFile bytes, none)

/-- `scaleContentWithImport` (`pdf_simple.go` lines 76-111).  A panic in
`scaleAllPages` unwinds through it: the deferred `Close` calls run, nothing is
written, and the output file stays as `os.Create` left it, empty. -/
def scaleContentWithImport (env : Env) (inputFile outputFile : String) (fs : FS) :
    FS × Option GoError :=
  match osOpen fs inputFile with
  | some err => (fs, some (wrapf "failed to open input file" err))
  | none =>
    match osCreate env fs outputFile with
    | (fs1, some err) => (fs1, some (wrapf "failed to create output file" err))
    | (fs1, none) =>
      match env.readContext (readAll fs1 inputFile) with
      | .error err => (fs1, some (wrapf "failed to read PDF context" err))
      | .ok ctx =>
        -- a panic inside `scaleAllPages` (line 99) ends the function there
        if (scaleAllPages ctx).2 = some runtimePanic then (fs1, some runtimePanic)
        else
          -- an error `scaleAllPages` returns is logged and dropped (lines 100-102)
          match env.writeContext ctx with
          | (bytes, some err) =>
            (fs1.write outputFile bytes, some (wrapf "failed to write scaled PDF" err))
          | (bytes, none) => (fs1.write outputFile bytes, none)

/-- `addMarginsWithNUp` (`pdf_simple.go` lines 37-57). -/
def addMarginsWithNUp (env : Env) (inputFile outputFile : String) (fs : FS) :
    FS × Option GoError :=
  match CreateMargins env inputFile outputFile fs with
  | (fs1, none) => (fs1, none)
  | (fs1, some _) =>
    match CreateMarginsWithImageMagick env inputFile outputFile fs1 with
    | (fs2, none) => (fs2, none)
    | (fs2, some _) => scaleContentWithImport env inputFile outputFile fs2

/-- `ProcessPDFSimple` (`pdf_simple.go` lines 14-35). -/
def ProcessPDFSimple (env : Env) (inputFile outputFile : String) (fs : FS) :
    FS × Option GoError :=
  match CreateMargins env inputFile outputFile fs with
  | (fs1, none) => (fs1, none)
  | (fs1, some _) =>
    match CreateMarginsWithImageMagick env inputFile outputFile fs1 with
    | (fs2, none) => (fs2, none)
    | (fs2, some _) => (fs2, some (errorf "failed to create margins with any available method"))

/-- `ProcessPDF` (`pdf.go` lines 34-43). -/
def ProcessPDF (env : Env) (inputFile outputFile : String) (fs : FS) : FS × Option GoError :=
  addMarginsWithNUp env inputFile outputFile fs

/-! ## Paths and strings (`path/filepath` on Unix, `strings`)

Go works on bytes, the model on characters; the separator `/` and the dot are
single bytes that occur in no multi-byte character, so both agree. -/

/-- The pieces of a path between its separators; `a//b` has an empty piece. -/
def splitSep : List Char → List (List Char)
  | [] => [[]]
  | c :: cs =>
    if c = '/' then [] :: splitSep cs
    else
      match splitSep cs with
      | [] => [[c]]
      | x :: xs => (c :: x) :: xs

/-- One step of `filepath.Clean` on the elements kept so far: an empty
element and `.` are dropped, `..` removes the element before it, or is kept at
the start of an unrooted path, or is dropped at the root; any other element is
kept. -/
def cleanStep (rooted : Bool) (stack : List (List Char)) (elem : List Char) :
    List (List Char) :=
  if elem = [] ∨ elem = ['.'] then stack
  else if elem = ['.', '.'] then
    match stack.getLast? with
    | none => if rooted then stack else stack ++ [elem]
    | some top => if top = ['.', '.'] then stack ++ [elem] else stack.dropLast
  else stack ++ [elem]

/-- The elements of a path written with one separator between neighbours. -/
def joinElems : List (List Char) → List Char
  | [] => []
  | [x] => x
  | x :: y :: rest => x ++ '/' :: joinElems (y :: rest)

/-- The path written from its elements: `/` in front of a rooted path, `.` for
an unrooted path without elements. -/
def renderPath (rooted : Bool) (stack : List (List Char)) : List Char :=
  if rooted then '/' :: joinElems stack
  else if stack = [] then ['.'] else joinElems stack

/-- The function `filepath.Clean`, by the rules of its documentation. -/
def cleanChars (path : List Char) : List Char :=
  if path = [] then ['.']
  else
    let rooted := path.head? = some '/'
    renderPath rooted ((splitSep path).foldl (cleanStep rooted) [])

/-- The part of a path up to and including its last separator: `path[:i+1]`
in `filepath.Dir`. -/
def uptoLastSep (path : List Char) : List Char :=
  (path.reverse.dropWhile (fun c => c ≠ '/')).reverse

/-- The part of a path after its last separator. -/
def afterLastSep (path : List Char) : List Char :=
  (path.reverse.takeWhile (fun c => c ≠ '/')).reverse

/-- The function `filepath.Dir`. -/
def dirChars (path : List Char) : List Char :=
  cleanChars (uptoLastSep path)

/-- The function `filepath.Base`. -/
def baseChars (path : List Char) : List Char :=
  if path = [] then ['.']
  else
    let stripped := (path.reverse.dropWhile (fun c => c = '/')).reverse
    let last := afterLastSep stripped
    if last = [] then ['/'] else last

/-- The function `filepath.Ext`: from the last dot of the last element on. -/
def extChars (path : List Char) : List Char :=
  let lastRev := path.reverse.takeWhile (fun c => c ≠ '/')
  if '.' ∈ lastRev then (lastRev.takeWhile (fun c => c ≠ '.') ++ ['.']).reverse else []

/-- The function `filepath.Join` of two elements. -/
def joinChars (a b : List Char) : List Char :=
  if a ≠ [] then cleanChars (a ++ '/' :: b)
  else if b ≠ [] then cleanChars b
  else []

/-- The function `strings.TrimSuffix`. -/
def trimSuffixChars (s suffix : List Char) : List Char :=
  if suffix.isSuffixOf s then s.take (s.length - suffix.length) else s

/-- The function `filepath.Dir`. -/
def filepathDir (path : String) : String := String.mk (dirChars path.data)

/-- The function `filepath.Base`. -/
def filepathBase (path : String) : String := String.mk (baseChars path.data)

/-- The function `filepath.Ext`. -/
def filepathExt (path : String) : String := String.mk (extChars path.data)

/-- The function `filepath.Join` of two elements. -/
def filepathJoin (a b : String) : String := String.mk (joinChars a.data b.data)

/-- The function `strings.TrimSuffix`. -/
def stringsTrimSuffix (s suffix : String) : String :=
  String.mk (trimSuffixChars s.data suffix.data)

/-- The function `strings.ToLower` on the letters `A` to `Z`; on the tests the
program makes (`== ".pdf"`, the names of the log levels) the letters outside
ASCII make no difference. -/
def stringsToLower (s : String) : String := String.mk (s.data.map Char.toLower)

/-! ## Input validation and output naming (`internal/utils`) -/

/-- `GenerateOutputFilename` (`file.go` lines 9-17). -/
def GenerateOutputFilename (inputFile : String) : String :=
  let dir := filepathDir inputFile
  let base := filepathBase inputFile
  let ext := filepathExt base
  let nameWithoutExt := stringsTrimSuffix base ext
  let outputName := nameWithoutExt ++ " - converted.pdf"
  filepathJoin dir outputName

/-- `isPDFFile` (`validation.go` lines 42-45). -/
def isPDFFile (filename : String) : Bool :=
  let ext := stringsToLower (filepathExt filename)
  ext = ".pdf"

/-- `ValidateInputFile` (`validation.go` lines 10-40): the returned error.
`os.Stat` reports a missing file exactly when the file system has none at the
path; `file.Read` into the 8 byte buffer fails with `EOF` on an empty file. -/
def ValidateInputFile (fs : FS) (filename : String) : Option GoError :=
  if filename = "" then some (errorf "filename cannot be empty")
  else if fs filename = none then some (errorf ("file does not exist: " ++ filename))
  else if ¬ isPDFFile filename then some (errorf ("file must be a PDF: " ++ filename))
  else
    match osOpen fs filename with
    | some err => some (wrapf "cannot read file" err)
    | none =>
      let content := readAll fs filename
      let n := min 8 content.utf8ByteSize
      if content.utf8ByteSize = 0 then some (wrapf "cannot read file header" ["EOF"])
      else if n < 4 ∨ ¬ "%PDF".data.isPrefixOf content.data then
        some (errorf "file is not a valid PDF: missing PDF header")
      else none

/-! ## The command line (`internal/cli`) -/

/-- The type `Config` (`args.go` lines 13-18). -/
structure Config where
  InputFile : String
  OutputFile : String
  Verbose : Bool
  LogLevel : String

/-- The levels of logrus, `logrus.Level`. -/
inductive Level where
  | PanicLevel | FatalLevel | ErrorLevel | WarnLevel | InfoLevel | DebugLevel | TraceLevel
  deriving DecidableEq

/-- The function `logrus.ParseLevel`. -/
def ParseLevel (lvl : String) : Except GoError Level :=
  let l := stringsToLower lvl
  if l = "panic" then .ok .PanicLevel
  else if l = "fatal" then .ok .FatalLevel
  else if l = "error" then .ok .ErrorLevel
  else if l = "warn" ∨ l = "warning" then .ok .WarnLevel
  else if l = "info" then .ok .InfoLevel
  else if l = "debug" then .ok .DebugLevel
  else if l = "trace" then .ok .TraceLevel
  else .error (errorf ("not a valid logrus Level: " ++ lvl))

/-- The configuration the root command hands to `runConversion`
(`NewRootCommand`, `args.go` lines 21, 35-36): `--verbose` defaults to false,
`--log-level` to `info`. -/
def rootCommandConfig (verboseFlag : Option Bool) (logLevelFlag : Option String) : Config :=
  { InputFile := "", OutputFile := "",
    Verbose := verboseFlag.getD false, LogLevel := logLevelFlag.getD "info" }

/-- `setupLogging` (`args.go` lines 68-88): the level handed to `logrus.SetLevel`. -/
def setupLogging (config : Config) : Level :=
  let level := if config.Verbose then Level.DebugLevel else Level.InfoLevel
  if config.LogLevel ≠ "" then
    match ParseLevel config.LogLevel with
    | .ok parsedLevel => parsedLevel
    | .error _ => level
  else level

/-- What `runConversion` leaves behind and returns. -/
structure ConversionResult where
  config : Config
  level : Level
  fs : FS
  err : Option GoError

/-- `runConversion` (`args.go` lines 41-66).  A panic in `ProcessPDF` unwinds
through it. -/
def runConversion (env : Env) (config : Config) (inputFile : String) (fs : FS) :
    ConversionResult :=
  let level := setupLogging config
  match ValidateInputFile fs inputFile with
  | some err =>
    { config := config, level := level, fs := fs,
      err := some (wrapf "input validation failed" err) }
  | none =>
    let outputFile := GenerateOutputFilename inputFile
    let config1 := { config with InputFile := inputFile, OutputFile := outputFile }
    match ProcessPDF env inputFile outputFile fs with
    | (fs1, some err) =>
      if err = runtimePanic then
        { config := config1, level := level, fs := fs1, err := some runtimePanic }
      else
        { config := config1, level := level, fs := fs1,
          err := some (wrapf "PDF processing failed" err) }
    | (fs1, none) => { config := config1, level := level, fs := fs1, err := none }

/-! ## Shapes of paths, for the statements about `GenerateOutputFilename` -/

/-- A path that is empty or ends with a separator. -/
def EndsWithSep (p : List Char) : Prop := p = [] ∨ ∃ f, p = f ++ ['/']

/-- The suffix the program appends to the name. -/
def convertedSuffix : List Char := " - converted.pdf".data

/-- The element `..`. -/
def dotdot : List Char := ['.', '.']

/-- An element `filepath.Clean` keeps as it is: not empty, not `.`, not `..`,
without a separator. -/
def IsNormal (c : List Char) : Prop := c ≠ [] ∧ c ≠ ['.'] ∧ c ≠ dotdot ∧ '/' ∉ c

/-- The shape of the elements `filepath.Clean` keeps: some `..` in front, none
of them in a rooted path, then normal elements. -/
def CleanStack (rooted : Bool) (stack : List (List Char)) : Prop :=
  ∃ k ns, stack = List.replicate k dotdot ++ ns ∧ (rooted = true → k = 0) ∧
    ∀ c ∈ ns, IsNormal c

/-- What `renderPath` writes in front of the last element. -/
def dirPart (rooted : Bool) (stack : List (List Char)) : List Char :=
  if rooted then (if stack = [] then ['/'] else '/' :: joinElems stack ++ ['/'])
  else (if stack = [] then [] else joinElems stack ++ ['/'])

/-- The name without its extension, as `GenerateOutputFilename` computes it. -/
def stemChars (p : List Char) : List Char :=
  trimSuffixChars (baseChars p) (extChars (baseChars p))

/-- `GenerateOutputFilename` on characters. -/
def genChars (p : List Char) : List Char :=
  joinChars (dirChars p) (stemChars p ++ convertedSuffix)

/-! ## Example inputs -/

/-- A page dictionary with the box of a US Letter page and no content. -/
def usLetterPage : Dict :=
  fun k => if k = "MediaBox" then
    some (.Array [.Integer 0, .Integer 0, .Integer 612, .Integer 792]) else none

/-- A one-page document of US Letter size. -/
def usLetterDoc : Context :=
  { pages := [usLetterPage], pageDims := .ok [{ Width := 612, Height := 792 }] }

/-- A US Letter page whose content stream paints a filled square. -/
def paintedPage : Dict :=
  fun k => if k = "MediaBox" then
    some (.Array [.Integer 0, .Integer 0, .Integer 612, .Integer 792])
  else if k = "Contents" then some (.StreamDict 16 "0 0 100 100 re f") else none

/-- A one-page document whose page has a content stream. -/
def paintedDoc : Context :=
  { pages := [paintedPage], pageDims := .ok [{ Width := 612, Height := 792 }] }

/-- A 20 x 20 point page: the margin is more than half of each side. -/
def tinyPage : Dict :=
  fun k => if k = "MediaBox" then
    some (.Array [.Integer 0, .Integer 0, .Integer 20, .Integer 20]) else none

/-- A one-page document whose page is too small for the margin. -/
def tinyDoc : Context :=
  { pages := [tinyPage], pageDims := .ok [{ Width := 20, Height := 20 }] }

/-- A page of 528 x 800 points. -/
def narrowPage : Dict :=
  fun k => if k = "MediaBox" then
    some (.Array [.Integer 0, .Integer 0, .Integer 528, .Integer 800]) else none

/-- A one-page document of 528 x 800 points. -/
def narrowDoc : Context :=
  { pages := [narrowPage], pageDims := .ok [{ Width := 528, Height := 800 }] }

/-- The context `api.ReadContext` returns for a one-page document: the
page count is not established (`ctx.PageCount` is 0, so that `ctx.PageDict`
finds no page) and `ctx.PageDims()` panics. -/
def freshLetterDoc : Context :=
  { pages := [], pageDims := .panic }

/-- A machine without ImageMagick: no command is found or runs, every file
can be created, and pdfcpu parses only the bytes `%PDF-letter`. -/
def noToolsEnv : Env :=
  { lookPath := fun _ => .error ["exec: executable file not found in $PATH"]
    run := fun _ fs => (fs, some ["exec: executable file not found in $PATH"])
    createErr := fun _ _ => none
    readContext := fun bytes =>
      if bytes = "%PDF-letter" then .ok freshLetterDoc else .error ["pdfcpu: malformed PDF"]
    writeContext := fun _ => ("%PDF-letter", none)
    dir := fun _ => "."
    join := fun a b => a ++ "/" ++ b }

/-- A file system without any file. -/
def emptyFS : FS := fun _ => none

/-- A file system whose only file, `in.pdf`, holds bytes pdfcpu cannot parse. -/
def brokenInputFS : FS := fun p => if p = "in.pdf" then some "%PDF-garbage" else none

/-- A file system whose only file, `in.pdf`, holds the bytes `%PDF-letter`. -/
def letterInputFS : FS := fun p => if p = "in.pdf" then some "%PDF-letter" else none

/-- A file system whose only file, `in.pdf`, is empty. -/
def zeroByteFS : FS := fun p => if p = "in.pdf" then some "" else none

/-- A file system whose only file, `in.pdf`, holds text without the PDF signature. -/
def textFileFS : FS := fun p => if p = "in.pdf" then some "hello world" else none

/-- A machine on which ImageMagick turns any input into an output file. -/
def convertEnv : Env :=
  { lookPath := fun _ => .ok "/usr/bin/convert"
    run := fun args fs => (fs.write (args.getLast?.getD "") "%PDF-raster", none)
    createErr := fun _ _ => none
    readContext := fun _ => .ok freshLetterDoc
    writeContext := fun _ => ("%PDF-letter", none)
    dir := fun _ => "."
    join := fun a b => a ++ "/" ++ b }

/-! ## Auxiliary lemmas -/

theorem roundHalfEven_eq_of_lt (x : ℚ) (n : ℤ) (h1 : (n : ℚ) - 1 / 2 < x)
    (h2 : x < n + 1 / 2) : roundHalfEven x = n := by
  unfold roundHalfEven
  have hf : ⌊x⌋ = n ∨ ⌊x⌋ = n - 1 := by
    have a1 : n - 1 ≤ ⌊x⌋ := by
      apply Int.le_floor.mpr
      push_cast; linarith
    have a2 : ⌊x⌋ < n + 1 := by
      apply Int.floor_lt.mpr
      push_cast; linarith
    omega
  rcases hf with hf | hf
  · have hx : (n : ℚ) ≤ x := by rw [← hf]; exact Int.floor_le x
    simp only [hf]
    rw [if_pos (by linarith)]
  · have hx : x < (n : ℚ) := by
      have := Int.lt_floor_add_one x
      rw [hf] at this; push_cast at this; linarith
    simp only [hf]
    rw [if_neg (by push_cast; linarith), if_pos (by push_cast; linarith)]
    ring

theorem fmtFloat_of_round (prec : Nat) (x : ℚ) (n : ℕ)
    (h : roundHalfEven (|x| * 10 ^ prec) = n) :
    fmtFloat prec x = (if x < 0 then "-" else "") ++ toString (n / 10 ^ prec) ++
      (if prec = 0 then "" else "." ++ padZeros prec (toString (n % 10 ^ prec))) := by
  simp [fmtFloat, h]

theorem fmtFloat_one : fmtFloat 6 1.0 = "1.000000" := by
  rw [fmtFloat_of_round 6 1.0 1000000 (by
    apply roundHalfEven_eq_of_lt <;> norm_num [abs_of_pos])]
  rw [if_neg (by norm_num)]
  decide

theorem fmtFloat_marginPoints : fmtFloat 6 MarginPoints = "14.173228" := by
  rw [fmtFloat_of_round 6 MarginPoints 14173228 (by
    apply roundHalfEven_eq_of_lt <;> norm_num [MarginPoints, MarginMM, PointsPerMM, abs_of_pos])]
  rw [if_neg (by norm_num [MarginPoints, MarginMM, PointsPerMM])]
  decide

theorem translateOperator_marginPoints :
    translateOperator MarginPoints = "q\n1.000000 0 0 1.000000 14.173228 14.173228 cm\n" := by
  unfold translateOperator
  rw [fmtFloat_one, fmtFloat_marginPoints]
  decide

theorem Dict.find_update (d : Dict) (key : String) (v : Object) (hv : v ≠ .Nil) :
    (d.Update key v).Find key = some v := by
  cases v <;> simp_all [Dict.Update, Dict.Find]

theorem Dict.find_update_of_ne (d : Dict) (key k : String) (v : Object) (hk : k ≠ key) :
    (d.Update key v).Find k = d.Find k := by
  cases v <;> simp_all [Dict.Update, Dict.Find]

theorem Context.pageDict_ok_iff (ctx : Context) (pageNum : ℤ) (d : Dict) :
    ctx.PageDict pageNum = .ok d ↔
      (0 < pageNum ∧ pageNum ≤ ctx.pages.length ∧ ctx.pages.get? (pageNum - 1).toNat = some d) := by
  unfold Context.PageDict Context.PageCount
  constructor
  · intro h
    split at h
    · simp at h
    · rename_i hn
      push_neg at hn
      refine ⟨hn.1, hn.2, ?_⟩
      split at h
      · rename_i d0 hd
        simp only [Except.ok.injEq] at h
        rw [hd, h]
      · simp at h
  · rintro ⟨h1, h2, h3⟩
    rw [if_neg (by push_neg; exact ⟨h1, h2⟩), h3]

theorem Context.pageDict_setPageDict (ctx : Context) (pageNum : ℤ) (d d1 : Dict)
    (h : ctx.PageDict pageNum = .ok d) : (ctx.setPageDict pageNum d1).PageDict pageNum = .ok d1 := by
  rw [Context.pageDict_ok_iff] at h ⊢
  obtain ⟨h1, h2, h3⟩ := h
  have hlt : (pageNum - 1).toNat < ctx.pages.length := by omega
  refine ⟨h1, by simpa [Context.setPageDict] using h2, ?_⟩
  simp [Context.setPageDict, List.getElem?_set]
  omega

theorem addMarginsToPage_ok (ctx : Context) (pageNum : ℤ) (m : ℚ) (pageDict : Dict)
    (e0 e1 e2 e3 : Object) (more : List Object) (x0 y0 x1 y1 : ℚ)
    (hpd : ctx.PageDict pageNum = .ok pageDict)
    (hmb : pageDict.Find "MediaBox" = some (.Array (e0 :: e1 :: e2 :: e3 :: more)))
    (h0 : numericValue e0 = some x0) (h1 : numericValue e1 = some y0)
    (h2 : numericValue e2 = some x1) (h3 : numericValue e3 = some y1) :
    let box := Object.Array [.Float x0, .Float y0, .Float (x1 + 2 * m), .Float (y1 + 2 * m)]
    let d1 := pageDict.Update "MediaBox" box
    let body := (getPageContent (ctx.setPageDict pageNum d1) pageNum).1
    let content := translateOperator m ++ body ++ "\nQ\n"
    let d2 := d1.Update "Contents" (.StreamDict (content.utf8ByteSize : ℤ) content)
    addMarginsToPage ctx pageNum m =
      some ((ctx.setPageDict pageNum d1).setPageDict pageNum d2, none) := by
  intro box d1 body content d2
  have hpd1 : (ctx.setPageDict pageNum d1).PageDict pageNum = .ok d1 :=
    Context.pageDict_setPageDict ctx pageNum pageDict d1 hpd
  have hex : extractMediaBoxValues (e0 :: e1 :: e2 :: e3 :: more) = some (x0, y0, x1, y1, none) := by
    simp [extractMediaBoxValues, h0, h1, h2, h3]
  have hg : (getPageContent (ctx.setPageDict pageNum d1) pageNum).2 = none := by
    simp only [getPageContent, hpd1]
    split <;> rfl
  unfold addMarginsToPage
  simp only [hpd, hmb]
  rw [if_neg (by simp)]
  simp only [hex]
  have hgp : getPageContent (ctx.setPageDict pageNum d1) pageNum = (body, none) := by
    apply Prod.ext
    · rfl
    · exact hg
  simp only [updatePageContent]
  rw [hgp]
  simp only [hpd1]

theorem marginPoints_value : MarginPoints = 14.173228345 := by
  norm_num [MarginPoints, MarginMM, PointsPerMM]

theorem usLetterDoc_pageDict : usLetterDoc.PageDict 1 = .ok usLetterPage := by
  rw [Context.pageDict_ok_iff]
  simp [usLetterDoc]

theorem paintedDoc_pageDict : paintedDoc.PageDict 1 = .ok paintedPage := by
  rw [Context.pageDict_ok_iff]
  simp [paintedDoc]

theorem getPageContent_streamDict (ctx : Context) (pageNum : ℤ) (d : Dict) (len : ℤ)
    (bytes : String) (h : ctx.PageDict pageNum = .ok d)
    (hc : d.Find "Contents" = some (.StreamDict len bytes)) :
    getPageContent ctx pageNum = ("% Existing content preserved\n", none) := by
  simp only [getPageContent, h, hc]

theorem truncToInt_eq_of_nonneg (x : ℚ) (n : ℤ) (h0 : 0 ≤ x) (h1 : (n : ℚ) ≤ x)
    (h2 : x < n + 1) : truncToInt x = n := by
  unfold truncToInt
  rw [if_pos h0]
  exact Int.floor_eq_iff.mpr ⟨h1, h2⟩

theorem finalWidthPx_value : finalWidthPx = 2480 := by
  apply truncToInt_eq_of_nonneg <;> norm_num [targetWidthMM, dpi]

theorem finalHeightPx_value : finalHeightPx = 3507 := by
  apply truncToInt_eq_of_nonneg <;> norm_num [targetHeightMM, dpi]

theorem contentWidthPx_value : contentWidthPx = 2362 := by
  apply truncToInt_eq_of_nonneg <;> norm_num [contentWidthMM, targetWidthMM, MarginMM, dpi]

theorem contentHeightPx_value : contentHeightPx = 3389 := by
  apply truncToInt_eq_of_nonneg <;> norm_num [contentHeightMM, targetHeightMM, MarginMM, dpi]

theorem marginPx_value : marginPx = 59 := by
  apply truncToInt_eq_of_nonneg <;> norm_num [MarginMM, dpi]

theorem fmtFloat_dpi : fmtFloat 0 dpi = "300" := by
  rw [fmtFloat_of_round 0 dpi 300 (by
    apply roundHalfEven_eq_of_lt <;> norm_num [dpi, abs_of_pos])]
  rw [if_neg (by norm_num [dpi])]
  decide

theorem filterMap_range_get (dims : List Dim) (f : Dim → InsetTransform) (n : ℕ) :
    (List.range n).filterMap (fun k => (dims.get? k).map f) = (dims.take n).map f := by
  induction n with
  | zero => simp
  | succ n ih =>
    rw [List.range_succ, List.filterMap_append, ih, List.take_succ, List.map_append]
    congr 1
    cases h : dims.get? n with
    | none =>
      rw [List.get?_eq_getElem?] at h
      simp [h]
    | some d =>
      rw [List.get?_eq_getElem?] at h
      simp [h]

theorem scaleAllPages_ok (pages : List Dict) (dims : List Dim) :
    scaleAllPages { pages := pages, pageDims := .ok dims } =
      ((dims.take pages.length).map insetTransform, none) := by
  simp only [scaleAllPages, filterMap_range_get]

theorem scaleAllPages_get (pages : List Dict) (dims : List Dim) (k : ℕ) (d : Dim)
    (hk : k < pages.length) (hd : dims.get? k = some d) :
    (scaleAllPages { pages := pages, pageDims := .ok dims }).1.get? k =
      some (insetTransform d) := by
  rw [scaleAllPages_ok]
  simp only [List.get?_eq_getElem?, List.getElem?_map, List.getElem?_take] at hd ⊢
  simp [hk, hd]

theorem marginPoints_pos : 0 < MarginPoints := by
  norm_num [MarginPoints, MarginMM, PointsPerMM]

/-! ### Rounding to float64 -/

theorem roundHalfEven_cases (x : ℚ) :
    roundHalfEven x = ⌊x⌋ ∧ x - ⌊x⌋ ≤ 1 / 2 ∨ roundHalfEven x = ⌊x⌋ + 1 ∧ 1 / 2 ≤ x - ⌊x⌋ := by
  unfold roundHalfEven
  simp only
  split
  · left; exact ⟨rfl, by linarith⟩
  · rename_i h1
    split
    · right; exact ⟨rfl, by linarith⟩
    · rename_i h2
      have heq : x - ⌊x⌋ = 1 / 2 := le_antisymm (not_lt.mp h2) (not_lt.mp h1)
      split
      · left; exact ⟨rfl, heq.le⟩
      · right; exact ⟨rfl, heq.ge⟩

theorem roundHalfEven_sub_le (x : ℚ) : |(roundHalfEven x : ℚ) - x| ≤ 1 / 2 := by
  have hf := Int.floor_le x
  have hf1 := Int.lt_floor_add_one x
  rw [abs_le]
  rcases roundHalfEven_cases x with ⟨h, hr⟩ | ⟨h, hr⟩
  · rw [h]; constructor <;> linarith
  · rw [h]; push_cast; constructor <;> linarith

theorem roundHalfEven_intCast (n : ℤ) : roundHalfEven (n : ℚ) = n := by
  unfold roundHalfEven
  simp

theorem roundHalfEven_mono {a b : ℚ} (h : a ≤ b) : roundHalfEven a ≤ roundHalfEven b := by
  by_contra hlt
  push_neg at hlt
  have h1 : roundHalfEven b + 1 ≤ roundHalfEven a := hlt
  have h2 : ((roundHalfEven b : ℤ) : ℚ) + 1 ≤ (roundHalfEven a : ℚ) := by exact_mod_cast h1
  have ha := (abs_le.mp (roundHalfEven_sub_le a)).2
  have hb := (abs_le.mp (roundHalfEven_sub_le b)).1
  have hab : a = b := le_antisymm h (by linarith)
  rw [hab] at hlt
  exact lt_irrefl _ hlt

theorem two_zpow_pos (e : ℤ) : (0 : ℚ) < 2 ^ e := zpow_pos (by norm_num) e

theorem log_bounds (x : ℚ) (hx : 0 < x) :
    (2 : ℚ) ^ Int.log 2 x ≤ x ∧ x < (2 : ℚ) ^ (Int.log 2 x + 1) := by
  have h1 := Int.zpow_log_le_self (b := 2) (r := x) (by norm_num) hx
  have h2 := Int.lt_zpow_succ_log_self (b := 2) (by norm_num) x
  simp only [Nat.cast_ofNat] at h1 h2
  exact ⟨h1, h2⟩

theorem log_eq_of_bounds (x : ℚ) (e : ℤ) (hx : 0 < x) (h1 : (2 : ℚ) ^ e ≤ x)
    (h2 : x < (2 : ℚ) ^ (e + 1)) : Int.log 2 x = e := by
  have a1 : e ≤ Int.log 2 x := by
    apply (Int.zpow_le_iff_le_log (b := 2) (by norm_num) hx).mp
    simpa using h1
  have a2 : Int.log 2 x < e + 1 := by
    apply (Int.lt_zpow_iff_log_lt (b := 2) (by norm_num) hx).mp
    simpa using h2
  omega

theorem zpow_split (e : ℤ) : (2 : ℚ) ^ e = 2 ^ 52 * 2 ^ (e - 52) := by
  have : (2 : ℚ) ^ e = 2 ^ ((52 : ℤ) + (e - 52)) := by congr 1; ring
  rw [this, zpow_add₀ (by norm_num)]
  norm_num

theorem zpow_succ_split (e : ℤ) : (2 : ℚ) ^ (e + 1) = 2 ^ 53 * 2 ^ (e - 52) := by
  have : (2 : ℚ) ^ (e + 1) = 2 ^ ((53 : ℤ) + (e - 52)) := by congr 1; ring
  rw [this, zpow_add₀ (by norm_num)]
  norm_num

/-- The value of `roundF64` from the binade and the nearest integer multiple. -/
theorem roundF64_eq_of (x : ℚ) (e n : ℤ) (hx : 0 < x) (h1 : (2 : ℚ) ^ e ≤ x)
    (h2 : x < (2 : ℚ) ^ (e + 1)) (h3 : (n : ℚ) - 1 / 2 < x / 2 ^ (e - 52))
    (h4 : x / 2 ^ (e - 52) < n + 1 / 2) : roundF64 x = n * 2 ^ (e - 52) := by
  unfold roundF64
  rw [if_neg hx.ne', abs_of_pos hx, log_eq_of_bounds x e hx h1 h2]
  simp only
  have hf : ⌊x / 2 ^ (e - 52)⌋ = n ∨ ⌊x / 2 ^ (e - 52)⌋ = n - 1 := by
    have a1 : n - 1 ≤ ⌊x / 2 ^ (e - 52)⌋ := by
      apply Int.le_floor.mpr
      push_cast; linarith
    have a2 : ⌊x / 2 ^ (e - 52)⌋ < n + 1 := by
      apply Int.floor_lt.mpr
      push_cast; linarith
    omega
  have hr : roundHalfEven (x / 2 ^ (e - 52)) = n := by
    have hfl := Int.floor_le (x / 2 ^ (e - 52))
    have hfl1 := Int.lt_floor_add_one (x / 2 ^ (e - 52))
    rcases roundHalfEven_cases (x / 2 ^ (e - 52)) with ⟨h, hr⟩ | ⟨h, hr⟩
    · rcases hf with hf | hf
      · rw [h, hf]
      · rw [hf] at hr; push_cast at hr; linarith
    · rcases hf with hf | hf
      · rw [hf] at hr; linarith
      · rw [h, hf]; ring
  rw [hr]

theorem roundHalfEven_eq_of_even (y : ℚ) (n : ℤ) (hn : n % 2 = 0) (h1 : (n : ℚ) - 1 / 2 ≤ y)
    (h2 : y ≤ n + 1 / 2) : roundHalfEven y = n := by
  have hfl := Int.floor_le y
  have hfl1 := Int.lt_floor_add_one y
  have hf : ⌊y⌋ = n ∨ ⌊y⌋ = n - 1 := by
    have a1 : n - 1 ≤ ⌊y⌋ := by
      apply Int.le_floor.mpr
      push_cast; linarith
    have a2 : ⌊y⌋ < n + 1 := by
      apply Int.floor_lt.mpr
      push_cast; linarith
    omega
  unfold roundHalfEven
  simp only
  rcases hf with hf | hf
  · rw [hf]
    split_ifs <;> first | rfl | omega | (exfalso; linarith)
  · rw [hf] at hfl hfl1 ⊢
    push_cast at hfl hfl1 ⊢
    split_ifs <;> first | omega | (exfalso; linarith)

/-- The value of `roundF64` at a tie or next to one: the even neighbour. -/
theorem roundF64_eq_of_even (x : ℚ) (e n : ℤ) (hx : 0 < x) (h1 : (2 : ℚ) ^ e ≤ x)
    (h2 : x < (2 : ℚ) ^ (e + 1)) (hn : n % 2 = 0) (h3 : (n : ℚ) - 1 / 2 ≤ x / 2 ^ (e - 52))
    (h4 : x / 2 ^ (e - 52) ≤ n + 1 / 2) : roundF64 x = n * 2 ^ (e - 52) := by
  unfold roundF64
  rw [if_neg hx.ne', abs_of_pos hx, log_eq_of_bounds x e hx h1 h2]
  simp only
  rw [roundHalfEven_eq_of_even _ n hn h3 h4]

theorem roundF64_zero : roundF64 0 = 0 := by simp [roundF64]

theorem roundF64_one : roundF64 1 = 1 := by
  have h := roundF64_eq_of 1 0 (2 ^ 52) (by norm_num) (by norm_num) (by norm_num)
    (by norm_num) (by norm_num)
  rw [h]; norm_num

/-- In the binade of `x > 0` the rounded value stays between the powers of two around `x`. -/
theorem roundF64_pos_bounds (x : ℚ) (hx : 0 < x) :
    (2 : ℚ) ^ Int.log 2 x ≤ roundF64 x ∧ roundF64 x ≤ (2 : ℚ) ^ (Int.log 2 x + 1) := by
  obtain ⟨h1, h2⟩ := log_bounds x hx
  have hq := two_zpow_pos (Int.log 2 x - 52)
  unfold roundF64
  rw [if_neg hx.ne', abs_of_pos hx]
  simp only
  have lo : ((2 ^ 52 : ℤ) : ℚ) ≤ x / 2 ^ (Int.log 2 x - 52) := by
    rw [le_div_iff₀ hq]
    have := zpow_split (Int.log 2 x)
    push_cast
    linarith
  have hi : x / 2 ^ (Int.log 2 x - 52) ≤ ((2 ^ 53 : ℤ) : ℚ) := by
    rw [div_le_iff₀ hq]
    have := zpow_succ_split (Int.log 2 x)
    push_cast
    linarith
  have nlo := roundHalfEven_mono lo
  have nhi := roundHalfEven_mono hi
  rw [roundHalfEven_intCast] at nlo nhi
  have nlo' : ((2 : ℚ) ^ 52) ≤ (roundHalfEven (x / 2 ^ (Int.log 2 x - 52)) : ℚ) := by
    exact_mod_cast nlo
  have nhi' : (roundHalfEven (x / 2 ^ (Int.log 2 x - 52)) : ℚ) ≤ (2 : ℚ) ^ 53 := by
    exact_mod_cast nhi
  constructor
  · rw [zpow_split (Int.log 2 x)]
    exact mul_le_mul_of_nonneg_right nlo' hq.le
  · rw [zpow_succ_split (Int.log 2 x)]
    exact mul_le_mul_of_nonneg_right nhi' hq.le

theorem roundF64_pos (x : ℚ) (hx : 0 < x) : 0 < roundF64 x :=
  lt_of_lt_of_le (two_zpow_pos _) (roundF64_pos_bounds x hx).1

theorem roundF64_nonpos (x : ℚ) (hx : x ≤ 0) : roundF64 x ≤ 0 := by
  unfold roundF64
  split
  · exact le_refl 0
  · simp only
    have hq := two_zpow_pos (Int.log 2 |x| - 52)
    have h0 : x / 2 ^ (Int.log 2 |x| - 52) ≤ ((0 : ℤ) : ℚ) := by
      simpa using div_nonpos_of_nonpos_of_nonneg hx hq.le
    have hn := roundHalfEven_mono h0
    rw [roundHalfEven_intCast] at hn
    have hn' : (roundHalfEven (x / 2 ^ (Int.log 2 |x| - 52)) : ℚ) ≤ 0 := by exact_mod_cast hn
    exact mul_nonpos_of_nonpos_of_nonneg hn' hq.le

theorem roundF64_mono_pos (x y : ℚ) (hx : 0 < x) (hxy : x ≤ y) : roundF64 x ≤ roundF64 y := by
  have hy : 0 < y := lt_of_lt_of_le hx hxy
  have hlog := Int.log_mono_right (b := 2) hx hxy
  rcases hlog.lt_or_eq with hlt | heq
  · -- different binades
    have h1 := (roundF64_pos_bounds x hx).2
    have h2 := (roundF64_pos_bounds y hy).1
    have h3 : (2 : ℚ) ^ (Int.log 2 x + 1) ≤ 2 ^ Int.log 2 y :=
      zpow_le_zpow_right₀ (by norm_num) (by omega)
    linarith
  · -- the same binade
    have hq := two_zpow_pos (Int.log 2 y - 52)
    unfold roundF64
    rw [if_neg hx.ne', if_neg hy.ne', abs_of_pos hx, abs_of_pos hy, heq]
    simp only
    have hdiv : x / 2 ^ (Int.log 2 y - 52) ≤ y / 2 ^ (Int.log 2 y - 52) :=
      div_le_div_of_nonneg_right hxy hq.le
    have hn := roundHalfEven_mono hdiv
    have hn' : (roundHalfEven (x / 2 ^ (Int.log 2 y - 52)) : ℚ) ≤
        (roundHalfEven (y / 2 ^ (Int.log 2 y - 52)) : ℚ) := by exact_mod_cast hn
    exact mul_le_mul_of_nonneg_right hn' hq.le


/-- The relative error of rounding is at most 2^-53. -/
theorem roundF64_abs_sub_le (x : ℚ) : |roundF64 x - x| ≤ 1 / 2 ^ 53 * |x| := by
  by_cases hx : x = 0
  · simp [hx, roundF64_zero]
  have hax : 0 < |x| := abs_pos.mpr hx
  have hq := two_zpow_pos (Int.log 2 |x| - 52)
  have hlo := (log_bounds |x| hax).1
  unfold roundF64
  rw [if_neg hx]
  simp only
  have herr := roundHalfEven_sub_le (x / 2 ^ (Int.log 2 |x| - 52))
  have hfac : (roundHalfEven (x / 2 ^ (Int.log 2 |x| - 52)) : ℚ) * 2 ^ (Int.log 2 |x| - 52) - x =
      ((roundHalfEven (x / 2 ^ (Int.log 2 |x| - 52)) : ℚ) - x / 2 ^ (Int.log 2 |x| - 52)) *
        2 ^ (Int.log 2 |x| - 52) := by
    field_simp
  rw [hfac, abs_mul, abs_of_pos hq]
  have hsplit := zpow_split (Int.log 2 |x|)
  calc |(roundHalfEven (x / 2 ^ (Int.log 2 |x| - 52)) : ℚ) - x / 2 ^ (Int.log 2 |x| - 52)| *
        2 ^ (Int.log 2 |x| - 52)
      ≤ 1 / 2 * 2 ^ (Int.log 2 |x| - 52) := mul_le_mul_of_nonneg_right herr hq.le
    _ = 1 / 2 ^ 53 * (2 : ℚ) ^ Int.log 2 |x| := by
        rw [hsplit]; ring
    _ ≤ 1 / 2 ^ 53 * |x| := mul_le_mul_of_nonneg_left hlo (by norm_num)

theorem roundF64_le_mul (x : ℚ) (hx : 0 ≤ x) : roundF64 x ≤ x * (1 + 1 / 2 ^ 53) := by
  have h := (abs_le.mp (roundF64_abs_sub_le x)).2
  rw [abs_of_nonneg hx] at h
  linarith

theorem roundF64_nonneg (x : ℚ) (hx : 0 ≤ x) : 0 ≤ roundF64 x := by
  rcases hx.lt_or_eq with h | h
  · exact (roundF64_pos x h).le
  · rw [← h, roundF64_zero]

theorem twoMargin_value :
    roundF64 (2 * MarginPoints) = 7978818236647369 / 281474976710656 := by
  rw [roundF64_eq_of _ 4 7978818236647369 (by norm_num [MarginPoints, MarginMM, PointsPerMM])
    (by norm_num [MarginPoints, MarginMM, PointsPerMM])
    (by norm_num [MarginPoints, MarginMM, PointsPerMM])
    (by norm_num [MarginPoints, MarginMM, PointsPerMM])
    (by norm_num [MarginPoints, MarginMM, PointsPerMM])]
  norm_num

theorem twoMargin_le : 2 * MarginPoints ≤ roundF64 (2 * MarginPoints) := by
  rw [twoMargin_value]; norm_num [MarginPoints, MarginMM, PointsPerMM]

theorem twoMargin_pos : 0 < roundF64 (2 * MarginPoints) := by
  rw [twoMargin_value]; norm_num

theorem insetScale_eq_min (w h : ℚ) :
    insetScale { Width := w, Height := h } =
      min (roundF64 (roundF64 (w - roundF64 (2 * MarginPoints)) / w))
        (roundF64 (roundF64 (h - roundF64 (2 * MarginPoints)) / h)) := by
  unfold insetScale
  simp only
  split
  · rename_i hlt; rw [min_eq_right hlt.le]
  · rename_i hlt; rw [min_eq_left (not_lt.mp hlt)]

/-- One axis of the inset geometry, for a side `w` that is a float64 and longer
than the rounded double margin `c`, and a positive scale `s` not above the
scale of this axis. -/
theorem axis_bounds (c w s : ℚ) (hw : roundF64 w = w) (hc : 0 < c) (hcw : c < w)
    (hs0 : 0 < s) (hs : s ≤ roundF64 (roundF64 (w - c) / w)) :
    s ≤ 1 ∧ 0 < roundF64 (w * s) ∧ roundF64 (w * s) ≤ w ∧
    w * s ≤ (w - c) * (1 + 1 / 2 ^ 51) ∧
    roundF64 (w * s) ≤ (w - c) * (1 + 1 / 2 ^ 51) ∧
    |w - roundF64 (w * s) - 2 * roundF64 (roundF64 (w - roundF64 (w * s)) / 2)| ≤ w / 2 ^ 51 ∧
    c / 2 - w / 2 ^ 50 ≤ roundF64 (roundF64 (w - roundF64 (w * s)) / 2) ∧
    roundF64 (roundF64 (w - roundF64 (w * s)) / 2) + roundF64 (w * s) ≤
      w - c / 2 + w / 2 ^ 50 := by
  have hw0 : 0 < w := hc.trans hcw
  have hA : 0 < w - c := by linarith
  have ha0 : 0 < roundF64 (w - c) := roundF64_pos _ hA
  have ha1 : roundF64 (w - c) ≤ (w - c) * (1 + 1 / 2 ^ 53) := roundF64_le_mul _ hA.le
  have ha2 : roundF64 (w - c) ≤ w := by
    have := roundF64_mono_pos (w - c) w hA (by linarith)
    rwa [hw] at this
  have hq0 : 0 < roundF64 (w - c) / w := div_pos ha0 hw0
  have hq1 : roundF64 (w - c) / w ≤ 1 := (div_le_one hw0).mpr ha2
  have hsx1 : roundF64 (roundF64 (w - c) / w) ≤ 1 := by
    have := roundF64_mono_pos _ 1 hq0 hq1
    rwa [roundF64_one] at this
  have hsx2 : w * roundF64 (roundF64 (w - c) / w) ≤ roundF64 (w - c) * (1 + 1 / 2 ^ 53) := by
    have h1 := roundF64_le_mul _ hq0.le
    have h2 := mul_le_mul_of_nonneg_left h1 hw0.le
    have h3 : w * (roundF64 (w - c) / w * (1 + 1 / 2 ^ 53)) =
        roundF64 (w - c) * (1 + 1 / 2 ^ 53) := by
      field_simp
      ring
    linarith
  have hs1 : s ≤ 1 := hs.trans hsx1
  have hws0 : 0 < w * s := mul_pos hw0 hs0
  have hws1 : w * s ≤ w * roundF64 (roundF64 (w - c) / w) :=
    mul_le_mul_of_nonneg_left hs hw0.le
  have hws2 : w * s ≤ w := by
    have := mul_le_mul_of_nonneg_left hs1 hw0.le
    linarith
  have hsw0 : 0 < roundF64 (w * s) := roundF64_pos _ hws0
  have hsw1 : roundF64 (w * s) ≤ w * s * (1 + 1 / 2 ^ 53) := roundF64_le_mul _ hws0.le
  have hsw2 : roundF64 (w * s) ≤ w := by
    have := roundF64_mono_pos (w * s) w hws0 hws2
    rwa [hw] at this
  have hD0 : 0 ≤ w - roundF64 (w * s) := by linarith
  have hd := abs_le.mp (roundF64_abs_sub_le (w - roundF64 (w * s)))
  rw [abs_of_nonneg hD0] at hd
  have hd0 : 0 ≤ roundF64 (w - roundF64 (w * s)) := roundF64_nonneg _ hD0
  have ht := abs_le.mp (roundF64_abs_sub_le (roundF64 (w - roundF64 (w * s)) / 2))
  rw [abs_of_nonneg (by linarith)] at ht
  obtain ⟨hd1, hd2⟩ := hd
  obtain ⟨ht1, ht2⟩ := ht
  refine ⟨hs1, hsw0, hsw2, ?_, ?_, ?_, ?_, ?_⟩
  · linarith
  · linarith
  · rw [abs_le]
    constructor <;> linarith
  · linarith
  · linarith


theorem marginPoints_float_doubled :
    roundF64 (2 * roundF64 MarginPoints) = roundF64 (2 * MarginPoints) := by
  have hm : roundF64 MarginPoints = 7978818236647369 / 562949953421312 := by
    rw [roundF64_eq_of _ 3 7978818236647369 (by norm_num [MarginPoints, MarginMM, PointsPerMM])
      (by norm_num [MarginPoints, MarginMM, PointsPerMM])
      (by norm_num [MarginPoints, MarginMM, PointsPerMM])
      (by norm_num [MarginPoints, MarginMM, PointsPerMM])
      (by norm_num [MarginPoints, MarginMM, PointsPerMM])]
    norm_num
  rw [hm, twoMargin_value]
  rw [roundF64_eq_of _ (4) 7978818236647369 (by norm_num) (by norm_num) (by norm_num)
    (by norm_num) (by norm_num)]
  norm_num

theorem roundF64_612 : roundF64 612 = 612 := by
  rw [roundF64_eq_of _ (9) 5383208929591296 (by norm_num) (by norm_num) (by norm_num)
    (by norm_num) (by norm_num)]
  norm_num

theorem roundF64_792 : roundF64 792 = 792 := by
  rw [roundF64_eq_of _ (9) 6966505673588736 (by norm_num) (by norm_num) (by norm_num)
    (by norm_num) (by norm_num)]
  norm_num

theorem availableWidth_528 :
    roundF64 (528 - roundF64 (2 * MarginPoints)) = 8789998091661187 / 17592186044416 := by
  rw [twoMargin_value]
  rw [roundF64_eq_of _ (8) 8789998091661187 (by norm_num) (by norm_num) (by norm_num)
    (by norm_num) (by norm_num)]
  norm_num

theorem insetScale_528_800 :
    insetScale { Width := 528, Height := 800 } = 532727157070375 / 562949953421312 := by
  have hah : roundF64 (800 - 7978818236647369 / 281474976710656) =
      3393768173935585 / 4398046511104 := by
    rw [roundF64_eq_of _ (9) 6787536347871170 (by norm_num) (by norm_num) (by norm_num)
      (by norm_num) (by norm_num)]
    norm_num
  have hsx : roundF64 (8789998091661187 / 17592186044416 / 528) =
      532727157070375 / 562949953421312 := by
    rw [roundF64_eq_of _ (-1) 8523634513126000 (by norm_num) (by norm_num) (by norm_num)
      (by norm_num) (by norm_num)]
    norm_num
  have hsy : roundF64 (3393768173935585 / 4398046511104 / 800) =
      4344023262637549 / 4503599627370496 := by
    rw [roundF64_eq_of _ (-1) 8688046525275098 (by norm_num) (by norm_num) (by norm_num)
      (by norm_num) (by norm_num)]
    norm_num
  rw [insetScale_eq_min, availableWidth_528, twoMargin_value, hah, hsx, hsy]
  exact min_eq_left (by norm_num)

theorem scaledWidth_528_800 :
    roundF64 (528 * (532727157070375 / 562949953421312)) =
      2197499522915297 / 4398046511104 := by
  rw [roundF64_eq_of_even _ (8) 8789998091661188 (by norm_num) (by norm_num) (by norm_num)
    (by norm_num) (by norm_num) (by norm_num)]
  norm_num

theorem insetTransform_612_792 :
    insetScale { Width := 612, Height := 792 } = 4295003072164029 / 4503599627370496 ∧
    (insetTransform { Width := 612, Height := 792 }).translateX =
      124669034947615 / 8796093022208 := by
  have haw : roundF64 (612 - 7978818236647369 / 281474976710656) =
      2566935429848033 / 4398046511104 := by
    rw [roundF64_eq_of _ (9) 5133870859696066 (by norm_num) (by norm_num) (by norm_num)
      (by norm_num) (by norm_num)]
    norm_num
  have hah : roundF64 (792 - 7978818236647369 / 281474976710656) =
      3358583801846753 / 4398046511104 := by
    rw [roundF64_eq_of _ (9) 6717167603693506 (by norm_num) (by norm_num) (by norm_num)
      (by norm_num) (by norm_num)]
    norm_num
  have hsx : roundF64 (2566935429848033 / 4398046511104 / 612) =
      4295003072164029 / 4503599627370496 := by
    rw [roundF64_eq_of _ (-1) 8590006144328058 (by norm_num) (by norm_num) (by norm_num)
      (by norm_num) (by norm_num)]
    norm_num
  have hsy : roundF64 (3358583801846753 / 4398046511104 / 792) =
      4342411380165499 / 4503599627370496 := by
    rw [roundF64_eq_of _ (-1) 8684822760330998 (by norm_num) (by norm_num) (by norm_num)
      (by norm_num) (by norm_num)]
    norm_num
  have hs : insetScale { Width := 612, Height := 792 } =
      4295003072164029 / 4503599627370496 := by
    rw [insetScale_eq_min, twoMargin_value, haw, hah, hsx, hsy]
    exact min_eq_left (by norm_num)
  have hsw : roundF64 (612 * (4295003072164029 / 4503599627370496)) =
      2566935429848033 / 4398046511104 := by
    rw [roundF64_eq_of _ (9) 5133870859696066 (by norm_num) (by norm_num) (by norm_num)
      (by norm_num) (by norm_num)]
    norm_num
  have hdx : roundF64 (612 - 2566935429848033 / 4398046511104) =
      124669034947615 / 4398046511104 := by
    rw [roundF64_eq_of _ (4) 7978818236647360 (by norm_num) (by norm_num) (by norm_num)
      (by norm_num) (by norm_num)]
    norm_num
  have htx : roundF64 (124669034947615 / 4398046511104 / 2) =
      124669034947615 / 8796093022208 := by
    rw [roundF64_eq_of _ (3) 7978818236647360 (by norm_num) (by norm_num) (by norm_num)
      (by norm_num) (by norm_num)]
    norm_num
  refine ⟨hs, ?_⟩
  show roundF64 (roundF64 (612 - roundF64 (612 * insetScale { Width := 612, Height := 792 })) / 2)
    = 124669034947615 / 8796093022208
  rw [hs, hsw, hdx, htx]

/-- The scale of a page whose sides are longer than the rounded double margin
is positive and at most the scale of each axis. -/
theorem inset_axes (w h : ℚ) (hm : roundF64 (2 * MarginPoints) < min w h) :
    0 < insetScale { Width := w, Height := h } ∧
    insetScale { Width := w, Height := h } ≤
      roundF64 (roundF64 (w - roundF64 (2 * MarginPoints)) / w) ∧
    insetScale { Width := w, Height := h } ≤
      roundF64 (roundF64 (h - roundF64 (2 * MarginPoints)) / h) := by
  have hc0 := twoMargin_pos
  have hcw : roundF64 (2 * MarginPoints) < w := lt_of_lt_of_le hm (min_le_left _ _)
  have hch : roundF64 (2 * MarginPoints) < h := lt_of_lt_of_le hm (min_le_right _ _)
  rw [insetScale_eq_min]
  refine ⟨lt_min ?_ ?_, min_le_left _ _, min_le_right _ _⟩
  · exact roundF64_pos _ (div_pos (roundF64_pos _ (by linarith)) (by linarith))
  · exact roundF64_pos _ (div_pos (roundF64_pos _ (by linarith)) (by linarith))

/-! ## The claims -/

/-- C1: on a page whose MediaBox starts with four numeric entries x0, y0, x1, y1,
`addMarginsToPage` with margin m succeeds, leaves the MediaBox
[x0, y0, x1 + 2m, y1 + 2m] and a content stream that starts with `q` and the
operator `1 0 0 1 m m cm` (numbers printed by `%f`).  With
m = MarginMM * PointsPerMM = 14.173228345 the added width is 28.34645669 and the
stream starts with `q`, `1.000000 0 0 1.000000 14.173228 14.173228 cm`. -/
theorem addMarginsToPage_box_and_translate (ctx : Context) (pageNum : ℤ) (m : ℚ)
    (pageDict : Dict) (e0 e1 e2 e3 : Object) (more : List Object) (x0 y0 x1 y1 : ℚ)
    (hpd : ctx.PageDict pageNum = .ok pageDict)
    (hmb : pageDict.Find "MediaBox" = some (.Array (e0 :: e1 :: e2 :: e3 :: more)))
    (h0 : numericValue e0 = some x0) (h1 : numericValue e1 = some y0)
    (h2 : numericValue e2 = some x1) (h3 : numericValue e3 = some y1) :
    (∃ ctx1 d1 len body,
      addMarginsToPage ctx pageNum m = some (ctx1, none) ∧
      ctx1.PageDict pageNum = .ok d1 ∧
      d1.Find "MediaBox" =
        some (.Array [.Float x0, .Float y0, .Float (x1 + 2 * m), .Float (y1 + 2 * m)]) ∧
      d1.Find "Contents" = some (.StreamDict len
        ("q\n" ++ fmtFloat 6 1.0 ++ " 0 0 " ++ fmtFloat 6 1.0 ++ " " ++ fmtFloat 6 m ++ " " ++
          fmtFloat 6 m ++ " cm\n" ++ body))) ∧
    fmtFloat 6 1.0 = "1.000000" ∧
    MarginPoints = 14.173228345 ∧
    fmtFloat 6 MarginPoints = "14.173228" ∧
    (612 : ℚ) + 2 * MarginPoints = 612 + 28.34645669 ∧
    (792 : ℚ) + 2 * MarginPoints = 792 + 28.34645669 := by
  refine ⟨?_, fmtFloat_one, marginPoints_value, fmtFloat_marginPoints, ?_, ?_⟩
  · let box := Object.Array [.Float x0, .Float y0, .Float (x1 + 2 * m), .Float (y1 + 2 * m)]
    let d1 := pageDict.Update "MediaBox" box
    let body := (getPageContent (ctx.setPageDict pageNum d1) pageNum).1
    let content := translateOperator m ++ body ++ "\nQ\n"
    let d2 := d1.Update "Contents" (.StreamDict (content.utf8ByteSize : ℤ) content)
    refine ⟨(ctx.setPageDict pageNum d1).setPageDict pageNum d2, d2,
      (content.utf8ByteSize : ℤ), body ++ "\nQ\n", ?_, ?_, ?_, ?_⟩
    · exact addMarginsToPage_ok ctx pageNum m pageDict e0 e1 e2 e3 more x0 y0 x1 y1
        hpd hmb h0 h1 h2 h3
    · exact Context.pageDict_setPageDict _ pageNum _ _
        (Context.pageDict_setPageDict ctx pageNum pageDict _ hpd)
    · show (d1.Update "Contents" _).Find "MediaBox" = some box
      rw [Dict.find_update_of_ne _ _ _ _ (by decide)]
      exact Dict.find_update _ _ _ (by simp [box])
    · show (d1.Update "Contents" _).Find "Contents" = _
      rw [Dict.find_update _ _ _ (by simp)]
      simp only [content, translateOperator, String.append_assoc]
  · rw [marginPoints_value]; norm_num
  · rw [marginPoints_value]; norm_num

/-- The US Letter page [0, 0, 612, 792] with the 5 mm margin: the new box is
[0, 0, 612 + 28.34645669, 792 + 28.34645669] and the stream is the translation
by (14.173228, 14.173228) around empty content. -/
theorem addMarginsToPage_box_and_translate_witness :
    ∃ ctx1 d1,
      addMarginsToPage usLetterDoc 1 MarginPoints = some (ctx1, none) ∧
      ctx1.PageDict 1 = .ok d1 ∧
      d1.Find "MediaBox" = some (.Array [.Float 0, .Float 0, .Float (612 + 28.34645669),
        .Float (792 + 28.34645669)]) ∧
      ∃ len body, d1.Find "Contents" = some (.StreamDict len
        ("q\n1.000000 0 0 1.000000 14.173228 14.173228 cm\n" ++ body)) := by
  have h := addMarginsToPage_box_and_translate usLetterDoc 1 MarginPoints usLetterPage
    (.Integer 0) (.Integer 0) (.Integer 612) (.Integer 792) [] 0 0 612 792
    usLetterDoc_pageDict (by simp [usLetterPage, Dict.Find])
    (by simp [numericValue]) (by simp [numericValue]) (by simp [numericValue])
    (by simp [numericValue])
  obtain ⟨⟨ctx1, d1, len, body, ha, hb, hc, hd⟩, f1, _, fm, w1, w2⟩ := h
  refine ⟨ctx1, d1, ha, hb, ?_, len, body, ?_⟩
  · rw [hc, w1, w2]
  · rw [hd, f1, fm]
    congr 1

/-- C2 (the code departs from it): on a page whose `Contents` entry is a
stream, whatever its bytes, `addMarginsToPage` writes the envelope around the
fixed comment line `% Existing content preserved`, not around the page's
original content bytes. -/
theorem addMarginsToPage_drops_content (ctx : Context) (pageNum : ℤ) (m : ℚ)
    (pageDict : Dict) (e0 e1 e2 e3 : Object) (more : List Object) (x0 y0 x1 y1 : ℚ)
    (len : ℤ) (bytes : String)
    (hpd : ctx.PageDict pageNum = .ok pageDict)
    (hmb : pageDict.Find "MediaBox" = some (.Array (e0 :: e1 :: e2 :: e3 :: more)))
    (h0 : numericValue e0 = some x0) (h1 : numericValue e1 = some y0)
    (h2 : numericValue e2 = some x1) (h3 : numericValue e3 = some y1)
    (hc : pageDict.Find "Contents" = some (.StreamDict len bytes)) :
    ∃ ctx1 d1 len1,
      addMarginsToPage ctx pageNum m = some (ctx1, none) ∧
      ctx1.PageDict pageNum = .ok d1 ∧
      d1.Find "Contents" = some (.StreamDict len1
        (translateOperator m ++ "% Existing content preserved\n" ++ "\nQ\n")) := by
  let box := Object.Array [.Float x0, .Float y0, .Float (x1 + 2 * m), .Float (y1 + 2 * m)]
  let d1 := pageDict.Update "MediaBox" box
  have hpd1 : (ctx.setPageDict pageNum d1).PageDict pageNum = .ok d1 :=
    Context.pageDict_setPageDict ctx pageNum pageDict d1 hpd
  have hc1 : d1.Find "Contents" = some (.StreamDict len bytes) := by
    show (pageDict.Update "MediaBox" box).Find "Contents" = _
    rw [Dict.find_update_of_ne _ _ _ _ (by decide), hc]
  have hbody := getPageContent_streamDict _ pageNum d1 len bytes hpd1 hc1
  have h := addMarginsToPage_ok ctx pageNum m pageDict e0 e1 e2 e3 more x0 y0 x1 y1
    hpd hmb h0 h1 h2 h3
  simp only [hbody] at h
  let content := translateOperator m ++ "% Existing content preserved\n" ++ "\nQ\n"
  let d2 := d1.Update "Contents" (.StreamDict (content.utf8ByteSize : ℤ) content)
  refine ⟨(ctx.setPageDict pageNum d1).setPageDict pageNum d2, d2,
    (content.utf8ByteSize : ℤ), h, ?_, ?_⟩
  · exact Context.pageDict_setPageDict _ pageNum _ _ hpd1
  · exact Dict.find_update _ _ _ (by simp)

/-- The page painting `0 0 100 100 re f`: after `addMarginsToPage` its
content stream is the translation around the comment line, and the painting
operators are gone. -/
theorem addMarginsToPage_drops_content_witness :
    paintedPage.Find "Contents" = some (.StreamDict 16 "0 0 100 100 re f") ∧
    ∃ ctx1 d1 len1,
      addMarginsToPage paintedDoc 1 MarginPoints = some (ctx1, none) ∧
      ctx1.PageDict 1 = .ok d1 ∧
      d1.Find "Contents" = some (.StreamDict len1
        "q\n1.000000 0 0 1.000000 14.173228 14.173228 cm\n% Existing content preserved\n\nQ\n") := by
  have hc : paintedPage.Find "Contents" = some (.StreamDict 16 "0 0 100 100 re f") := by
    simp [paintedPage, Dict.Find]
  have h := addMarginsToPage_drops_content paintedDoc 1 MarginPoints paintedPage
    (.Integer 0) (.Integer 0) (.Integer 612) (.Integer 792) [] 0 0 612 792 16
    "0 0 100 100 re f" paintedDoc_pageDict (by simp [paintedPage, Dict.Find])
    (by simp [numericValue]) (by simp [numericValue]) (by simp [numericValue])
    (by simp [numericValue]) hc
  refine ⟨hc, ?_⟩
  obtain ⟨ctx1, d1, len1, ha, hb, hd⟩ := h
  refine ⟨ctx1, d1, len1, ha, hb, ?_⟩
  rw [hd, translateOperator_marginPoints]
  congr 1

/-- C3: where ImageMagick is found, `CreateMarginsForLetterXpress` runs
exactly three `convert` commands, each on the file system the one before left:
the first page resized to the content box `2362x3389!`, a white canvas of
`2480x3507` pixels with that image placed at `+59+59`, and the encode of the
canvas to the output path with `-define pdf:page-size=a4`; it stops at the first
that fails, with that error wrapped, and after the third removes its two
temporary files.  The sizes are trunc(210*300/25.4) x trunc(297*300/25.4) and
trunc(200*300/25.4) x trunc(287*300/25.4); the source document enters the
commands as the input operand only. -/
theorem letterXpress_canvas_fixed_a4 (env : Env) (inputFile outputFile path : String)
    (fs : FS) (hconvert : env.lookPath "convert" = .ok path) :
    let tempContentFile := env.join (env.dir outputFile) "temp_content.png"
    let tempA4File := env.join (env.dir outputFile) "temp_a4_canvas.png"
    let r1 := env.run ["convert", "-density", "300", "-background", "white", "-flatten",
      "-resize", "2362x3389!", inputFile ++ "[0]", tempContentFile] fs
    let r2 := env.run ["convert", "-size", "2480x3507", "xc:white", tempContentFile,
      "-geometry", "+59+59", "-composite", tempA4File] r1.1
    let r3 := env.run ["convert", tempA4File, "-density", "300", "-compress", "jpeg",
      "-quality", "95", "-define", "pdf:page-size=a4", outputFile] r2.1
    finalWidthPx = truncToInt (210 * 300 / 25.4) ∧ finalWidthPx = 2480 ∧
    finalHeightPx = truncToInt (297 * 300 / 25.4) ∧ finalHeightPx = 3507 ∧
    contentWidthPx = truncToInt (200 * 300 / 25.4) ∧ contentWidthPx = 2362 ∧
    contentHeightPx = truncToInt (287 * 300 / 25.4) ∧ contentHeightPx = 3389 ∧
    CreateMarginsForLetterXpress env inputFile outputFile fs =
      (match r1.2 with
       | some err => (r1.1, some (wrapf "pdf content conversion failed" err))
       | none =>
         match r2.2 with
         | some err => (r2.1, some (wrapf "a4 canvas creation failed" err))
         | none =>
           match r3.2 with
           | some err => (r3.1, some (wrapf "final pdf creation failed" err))
           | none => ((r3.1.remove tempContentFile).remove tempA4File, none)) := by
  intro tempContentFile tempA4File r1 r2 r3
  refine ⟨?_, finalWidthPx_value, ?_, finalHeightPx_value, ?_, contentWidthPx_value, ?_,
    contentHeightPx_value, ?_⟩
  · norm_num [finalWidthPx, targetWidthMM, dpi]
  · norm_num [finalHeightPx, targetHeightMM, dpi]
  · norm_num [contentWidthPx, contentWidthMM, targetWidthMM, MarginMM, dpi]
  · norm_num [contentHeightPx, contentHeightMM, targetHeightMM, MarginMM, dpi]
  · have c1 : letterXpressCmd1 inputFile tempContentFile =
        ["convert", "-density", "300", "-background", "white", "-flatten",
         "-resize", "2362x3389!", inputFile ++ "[0]", tempContentFile] := by
      simp only [letterXpressCmd1, fmtFloat_dpi, contentWidthPx_value, contentHeightPx_value]
      have : fmtInt 2362 ++ "x" ++ fmtInt 3389 ++ "!" = "2362x3389!" := by decide
      rw [this]
    have c2 : letterXpressCmd2 tempContentFile tempA4File =
        ["convert", "-size", "2480x3507", "xc:white", tempContentFile,
         "-geometry", "+59+59", "-composite", tempA4File] := by
      simp only [letterXpressCmd2, finalWidthPx_value, finalHeightPx_value, marginPx_value]
      have h1 : fmtInt 2480 ++ "x" ++ fmtInt 3507 = "2480x3507" := by decide
      have h2 : "+" ++ fmtInt 59 ++ "+" ++ fmtInt 59 = "+59+59" := by decide
      rw [h1, h2]
    have c3 : letterXpressCmd3 tempA4File outputFile =
        ["convert", tempA4File, "-density", "300", "-compress", "jpeg", "-quality", "95",
         "-define", "pdf:page-size=a4", outputFile] := by
      simp only [letterXpressCmd3, fmtFloat_dpi]
    unfold CreateMarginsForLetterXpress
    simp only [hconvert]
    rw [c1, c2, c3]
    simp only [r1, r2, r3]
    generalize env.run _ fs = x1
    rcases x1 with ⟨fs1, _ | e1⟩
    · dsimp only
      generalize env.run _ fs1 = x2
      rcases x2 with ⟨fs2, _ | e2⟩
      · dsimp only
        generalize env.run _ fs2 = x3
        rcases x3 with ⟨fs3, _ | e3⟩ <;> rfl
      · rfl
    · rfl

/-- A machine on which `convert` writes its last operand: the three commands
run, the output path holds what the A4 encode wrote, and the two temporary
files are gone. -/
theorem letterXpress_canvas_fixed_a4_witness :
    convertEnv.lookPath "convert" = .ok "/usr/bin/convert" ∧
    (CreateMarginsForLetterXpress convertEnv "in.pdf" "out.pdf" letterInputFS).2 = none ∧
    (CreateMarginsForLetterXpress convertEnv "in.pdf" "out.pdf" letterInputFS).1 "out.pdf" =
      some "%PDF-raster" ∧
    (CreateMarginsForLetterXpress convertEnv "in.pdf" "out.pdf" letterInputFS).1
      "./temp_content.png" = none ∧
    (CreateMarginsForLetterXpress convertEnv "in.pdf" "out.pdf" letterInputFS).1
      "./temp_a4_canvas.png" = none := by
  have h := (letterXpress_canvas_fixed_a4 convertEnv "in.pdf" "out.pdf" "/usr/bin/convert"
    letterInputFS rfl).2.2.2.2.2.2.2.2
  rw [h]
  refine ⟨rfl, ?_, ?_, ?_, ?_⟩ <;> decide

/-- C4, as stated, fails: the left border of the canvas, `marginPx` pixels at
300 DPI, is narrower than 5 mm. -/
theorem letterXpress_border_below_margin :
    ¬ (MarginMM ≤ (marginPx : ℚ) * 25.4 / 300 ∧
       MarginMM ≤ ((finalWidthPx - marginPx - contentWidthPx : ℤ) : ℚ) * 25.4 / 300 ∧
       MarginMM ≤ ((finalHeightPx - marginPx - contentHeightPx : ℤ) : ℚ) * 25.4 / 300) := by
  rw [marginPx_value]
  intro h
  have := h.1
  norm_num [MarginMM] at this

/-- C4, amended: each of the four borders of the A4 canvas is exactly 59 pixels,
the 5 mm margin rounded down to whole pixels at 300 DPI: narrower than 5 mm, by
less than one pixel (25.4 / 300 mm). -/
theorem letterXpress_borders_59px :
    marginPx = 59 ∧
    finalWidthPx - marginPx - contentWidthPx = 59 ∧
    finalHeightPx - marginPx - contentHeightPx = 59 ∧
    ((59 : ℤ) : ℚ) * 25.4 / 300 < MarginMM ∧
    MarginMM - 25.4 / 300 < ((59 : ℤ) : ℚ) * 25.4 / 300 := by
  rw [marginPx_value, finalWidthPx_value, finalHeightPx_value, contentWidthPx_value,
    contentHeightPx_value]
  norm_num [MarginMM]

/-- C5, as stated, fails: on the page of 528 x 800 points, where MarginPoints
is less than half of each side, the scale is 0.9463135289962121 and the scaled
width exceeds 528 - 2 MarginPoints = 499.65354331, whether the product
528 * scale is taken exactly or as the float64 the code computes
(499.65354331000003); it also exceeds the `availableWidth` of the code.  And on
a square page whose side is the float64 of 2 MarginPoints, which is greater
than 2 MarginPoints, the scale is 0. -/
theorem inset_scaled_width_exceeds_available :
    let t := (applyContentTransformation narrowDoc 1 { Width := 528, Height := 800 }).1
    let c := roundF64 (2 * MarginPoints)
    MarginPoints < min (528 : ℚ) 800 / 2 ∧
    (scaleAllPages narrowDoc).1.get? 0 = some t ∧
    t.scale = 532727157070375 / 562949953421312 ∧
    roundF64 (528 * t.scale) = 2197499522915297 / 4398046511104 ∧
    ¬ (528 * t.scale ≤ 528 - 2 * MarginPoints) ∧
    ¬ (roundF64 (528 * t.scale) ≤ 528 - 2 * MarginPoints) ∧
    ¬ (roundF64 (528 * t.scale) ≤ roundF64 (528 - roundF64 (2 * MarginPoints))) ∧
    MarginPoints < min c c / 2 ∧
    (applyContentTransformation narrowDoc 1 { Width := c, Height := c }).1.scale = 0 := by
  intro t c
  have hts : t.scale = 532727157070375 / 562949953421312 := insetScale_528_800
  have hsw : roundF64 (528 * t.scale) = 2197499522915297 / 4398046511104 := by
    rw [hts]; exact scaledWidth_528_800
  refine ⟨?_, scaleAllPages_get [narrowPage] [{ Width := 528, Height := 800 }] 0 _ (by simp) rfl,
    hts, hsw, ?_, ?_, ?_, ?_, ?_⟩
  · rw [marginPoints_value]; norm_num
  · rw [hts, marginPoints_value]; norm_num
  · rw [hsw, marginPoints_value]; norm_num
  · rw [hsw, availableWidth_528]; norm_num
  · have hc : c = 7978818236647369 / 281474976710656 := twoMargin_value
    rw [hc, marginPoints_value]; norm_num
  · show insetScale { Width := c, Height := c } = 0
    rw [insetScale_eq_min]
    simp [roundF64_zero]

/-- C5, amended: for a page whose width w and height h are float64 values
greater than the float64 of 2 MarginPoints, the scale computed by
`applyContentTransformation`, which is also the one `scaleAllPages` computes for
that page, is the minimum of the two float64 quotients, lies in (0, 1], and the
scaled page fits the inset area on both axes up to rounding: the product
side * scale, exact or as the float64 the code computes, is at most
(side - 2 MarginPoints) (1 + 2^-51). -/
theorem inset_scale_fits_up_to_rounding (ctx : Context) (pageNum : ℤ) (w h : ℚ)
    (pages : List Dict) (dims : List Dim) (k : ℕ)
    (hw : roundF64 w = w) (hh : roundF64 h = h)
    (hm : roundF64 (2 * MarginPoints) < min w h)
    (hk : k < pages.length) (hd : dims.get? k = some { Width := w, Height := h }) :
    let t := (applyContentTransformation ctx pageNum { Width := w, Height := h }).1
    (scaleAllPages { pages := pages, pageDims := .ok dims }).1.get? k = some t ∧
    t.scale = min (roundF64 (roundF64 (w - roundF64 (2 * MarginPoints)) / w))
      (roundF64 (roundF64 (h - roundF64 (2 * MarginPoints)) / h)) ∧
    0 < t.scale ∧ t.scale ≤ 1 ∧
    w * t.scale ≤ (w - 2 * MarginPoints) * (1 + 1 / 2 ^ 51) ∧
    roundF64 (w * t.scale) ≤ (w - 2 * MarginPoints) * (1 + 1 / 2 ^ 51) ∧
    h * t.scale ≤ (h - 2 * MarginPoints) * (1 + 1 / 2 ^ 51) ∧
    roundF64 (h * t.scale) ≤ (h - 2 * MarginPoints) * (1 + 1 / 2 ^ 51) := by
  intro t
  have hts : t.scale = insetScale { Width := w, Height := h } := rfl
  have hc0 := twoMargin_pos
  have hcle := twoMargin_le
  have hcw : roundF64 (2 * MarginPoints) < w := lt_of_lt_of_le hm (min_le_left _ _)
  have hch : roundF64 (2 * MarginPoints) < h := lt_of_lt_of_le hm (min_le_right _ _)
  obtain ⟨hs0, hsx, hsy⟩ := inset_axes w h hm
  obtain ⟨x1, _, _, x4, x5, _, _, _⟩ := axis_bounds _ w _ hw hc0 hcw hs0 hsx
  obtain ⟨_, _, _, y4, y5, _, _, _⟩ := axis_bounds _ h _ hh hc0 hch hs0 hsy
  rw [← hts] at hs0 x1 x4 x5 y4 y5
  refine ⟨scaleAllPages_get pages dims k _ hk hd, hts.trans (insetScale_eq_min w h), hs0, x1,
    ?_, ?_, ?_, ?_⟩ <;> linarith

/-- The US Letter page, 612 x 792 points. -/
theorem inset_scale_fits_up_to_rounding_witness :
    let t := (applyContentTransformation usLetterDoc 1 { Width := 612, Height := 792 }).1
    roundF64 (2 * MarginPoints) < min (612 : ℚ) 792 ∧
    (scaleAllPages usLetterDoc).1.get? 0 = some t ∧
    t.scale = min (roundF64 (roundF64 (612 - roundF64 (2 * MarginPoints)) / 612))
      (roundF64 (roundF64 (792 - roundF64 (2 * MarginPoints)) / 792)) ∧
    0 < t.scale ∧ t.scale ≤ 1 ∧
    612 * t.scale ≤ (612 - 2 * MarginPoints) * (1 + 1 / 2 ^ 51) ∧
    roundF64 (612 * t.scale) ≤ (612 - 2 * MarginPoints) * (1 + 1 / 2 ^ 51) ∧
    792 * t.scale ≤ (792 - 2 * MarginPoints) * (1 + 1 / 2 ^ 51) ∧
    roundF64 (792 * t.scale) ≤ (792 - 2 * MarginPoints) * (1 + 1 / 2 ^ 51) := by
  have hm : roundF64 (2 * MarginPoints) < min (612 : ℚ) 792 := by
    rw [twoMargin_value]; norm_num
  exact ⟨hm, inset_scale_fits_up_to_rounding usLetterDoc 1 612 792 [usLetterPage]
    [{ Width := 612, Height := 792 }] 0 roundF64_612 roundF64_792 hm (by simp) rfl⟩

/-- C6, as stated, fails: on the US Letter page, 612 x 792 points, the scale
is valid (0.9536822603104576) and the translation the code computes is
translateX = 14.173228344999984, less than MarginPoints = 14.173228345: the left
edge of the scaled content lies outside [MarginPoints, 612 - MarginPoints].  Nor
is translateX the exact value of (612 - 612 scale) / 2. -/
theorem inset_translation_below_margin :
    let t := (applyContentTransformation usLetterDoc 1 { Width := 612, Height := 792 }).1
    MarginPoints < min (612 : ℚ) 792 / 2 ∧
    (scaleAllPages usLetterDoc).1.get? 0 = some t ∧
    0 < t.scale ∧ t.scale ≤ 1 ∧
    t.translateX = 124669034947615 / 8796093022208 ∧
    t.translateX < MarginPoints ∧
    t.translateX ≠ (612 - 612 * t.scale) / 2 := by
  intro t
  have hts : t.scale = 4295003072164029 / 4503599627370496 := insetTransform_612_792.1
  have htx : t.translateX = 124669034947615 / 8796093022208 := insetTransform_612_792.2
  refine ⟨?_, scaleAllPages_get [usLetterPage] [{ Width := 612, Height := 792 }] 0 _ (by simp) rfl,
    ?_, ?_, htx, ?_, ?_⟩
  · rw [marginPoints_value]; norm_num
  · rw [hts]; norm_num
  · rw [hts]; norm_num
  · rw [htx, marginPoints_value]; norm_num
  · rw [htx, hts]; norm_num

/-- C6, amended: for a page whose width w and height h are float64 values
greater than the float64 of 2 MarginPoints, the translation computed by
`applyContentTransformation`, which is also the one `scaleAllPages` computes for
that page, is the float64 value of (side - scaled side) / 2 on each axis.  The
scaled content is centred up to rounding: the two gaps of an axis differ by at
most 2^-51 of the side, and the content lies inside
[MarginPoints, side - MarginPoints] widened by 2^-50 of the side at each end. -/
theorem inset_translation_centred_up_to_rounding (ctx : Context) (pageNum : ℤ) (w h : ℚ)
    (pages : List Dict) (dims : List Dim) (k : ℕ)
    (hw : roundF64 w = w) (hh : roundF64 h = h)
    (hm : roundF64 (2 * MarginPoints) < min w h)
    (hk : k < pages.length) (hd : dims.get? k = some { Width := w, Height := h }) :
    let t := (applyContentTransformation ctx pageNum { Width := w, Height := h }).1
    let scaledWidth := roundF64 (w * t.scale)
    let scaledHeight := roundF64 (h * t.scale)
    (scaleAllPages { pages := pages, pageDims := .ok dims }).1.get? k = some t ∧
    t.translateX = roundF64 (roundF64 (w - scaledWidth) / 2) ∧
    t.translateY = roundF64 (roundF64 (h - scaledHeight) / 2) ∧
    |(w - (t.translateX + scaledWidth)) - t.translateX| ≤ w / 2 ^ 51 ∧
    |(h - (t.translateY + scaledHeight)) - t.translateY| ≤ h / 2 ^ 51 ∧
    MarginPoints - w / 2 ^ 50 ≤ t.translateX ∧
    t.translateX + scaledWidth ≤ w - MarginPoints + w / 2 ^ 50 ∧
    MarginPoints - h / 2 ^ 50 ≤ t.translateY ∧
    t.translateY + scaledHeight ≤ h - MarginPoints + h / 2 ^ 50 := by
  intro t scaledWidth scaledHeight
  have hts : t.scale = insetScale { Width := w, Height := h } := rfl
  have htx : t.translateX = roundF64 (roundF64 (w - scaledWidth) / 2) := rfl
  have hty : t.translateY = roundF64 (roundF64 (h - scaledHeight) / 2) := rfl
  have hc0 := twoMargin_pos
  have hcle := twoMargin_le
  have hcw : roundF64 (2 * MarginPoints) < w := lt_of_lt_of_le hm (min_le_left _ _)
  have hch : roundF64 (2 * MarginPoints) < h := lt_of_lt_of_le hm (min_le_right _ _)
  obtain ⟨hs0, hsx, hsy⟩ := inset_axes w h hm
  obtain ⟨_, _, _, _, _, x6, x7, x8⟩ := axis_bounds _ w _ hw hc0 hcw hs0 hsx
  obtain ⟨_, _, _, _, _, y6, y7, y8⟩ := axis_bounds _ h _ hh hc0 hch hs0 hsy
  rw [← hts] at x6 x7 x8 y6 y7 y8
  change |w - scaledWidth - 2 * t.translateX| ≤ w / 2 ^ 51 at x6
  change roundF64 (2 * MarginPoints) / 2 - w / 2 ^ 50 ≤ t.translateX at x7
  change t.translateX + scaledWidth ≤ w - roundF64 (2 * MarginPoints) / 2 + w / 2 ^ 50 at x8
  change |h - scaledHeight - 2 * t.translateY| ≤ h / 2 ^ 51 at y6
  change roundF64 (2 * MarginPoints) / 2 - h / 2 ^ 50 ≤ t.translateY at y7
  change t.translateY + scaledHeight ≤ h - roundF64 (2 * MarginPoints) / 2 + h / 2 ^ 50 at y8
  refine ⟨scaleAllPages_get pages dims k _ hk hd, htx, hty, ?_, ?_, ?_, ?_, ?_, ?_⟩
  · have e : w - (t.translateX + scaledWidth) - t.translateX =
        w - scaledWidth - 2 * t.translateX := by ring
    rw [e]; exact x6
  · have e : h - (t.translateY + scaledHeight) - t.translateY =
        h - scaledHeight - 2 * t.translateY := by ring
    rw [e]; exact y6
  · linarith
  · linarith
  · linarith
  · linarith

/-- The US Letter page, 612 x 792 points. -/
theorem inset_translation_centred_up_to_rounding_witness :
    let t := (applyContentTransformation usLetterDoc 1 { Width := 612, Height := 792 }).1
    let scaledWidth := roundF64 (612 * t.scale)
    let scaledHeight := roundF64 (792 * t.scale)
    roundF64 (2 * MarginPoints) < min (612 : ℚ) 792 ∧
    (scaleAllPages usLetterDoc).1.get? 0 = some t ∧
    t.translateX = roundF64 (roundF64 (612 - scaledWidth) / 2) ∧
    t.translateY = roundF64 (roundF64 (792 - scaledHeight) / 2) ∧
    |(612 - (t.translateX + scaledWidth)) - t.translateX| ≤ 612 / 2 ^ 51 ∧
    |(792 - (t.translateY + scaledHeight)) - t.translateY| ≤ 792 / 2 ^ 51 ∧
    MarginPoints - 612 / 2 ^ 50 ≤ t.translateX ∧
    t.translateX + scaledWidth ≤ 612 - MarginPoints + 612 / 2 ^ 50 ∧
    MarginPoints - 792 / 2 ^ 50 ≤ t.translateY ∧
    t.translateY + scaledHeight ≤ 792 - MarginPoints + 792 / 2 ^ 50 := by
  have hm : roundF64 (2 * MarginPoints) < min (612 : ℚ) 792 := by
    rw [twoMargin_value]; norm_num
  exact ⟨hm, inset_translation_centred_up_to_rounding usLetterDoc 1 612 792 [usLetterPage]
    [{ Width := 612, Height := 792 }] 0 roundF64_612 roundF64_792 hm (by simp) rfl⟩

/-- C7, as stated, fails: on the 20 x 20 point page, where MarginPoints is at
least half of each side, `applyContentTransformation`, `scalePageContent` and
`scaleAllPages` all return without an error. -/
theorem inset_geometry_accepts_tiny_page :
    (20 : ℚ) / 2 ≤ MarginPoints ∧
    (applyContentTransformation tinyDoc 1 { Width := 20, Height := 20 }).2 = none ∧
    (∃ s, scalePageContent tinyDoc 1 = some (s, none)) ∧
    (scaleAllPages tinyDoc).2 = none := by
  refine ⟨?_, rfl, ⟨_, rfl⟩, rfl⟩
  rw [marginPoints_value]; norm_num

/-- C7, amended: the inset-geometry computation has no rejection.  For every
page whose dimensions `ctx.PageDims()` delivers, `applyContentTransformation`,
`scalePageContent` and `scaleAllPages` return no error; on a degenerate page
(MarginPoints at least half the width or half the height) the scale they
compute, and only log, is at most 0. -/
theorem inset_geometry_never_rejects (ctx : Context) (dims : List Dim) (k : ℕ)
    (pageDim : Dim) (hd : ctx.pageDims = .ok dims) (hk : dims.get? k = some pageDim) :
    (applyContentTransformation ctx ((k : ℤ) + 1) pageDim).2 = none ∧
    scalePageContent ctx ((k : ℤ) + 1) = some (some (insetScale pageDim), none) ∧
    (scaleAllPages ctx).2 = none ∧
    (0 < pageDim.Width → 0 < pageDim.Height →
      (pageDim.Width / 2 ≤ MarginPoints ∨ pageDim.Height / 2 ≤ MarginPoints) →
      insetScale pageDim ≤ 0) := by
  refine ⟨rfl, ?_, ?_, ?_⟩
  · have hlen : k < dims.length := by
      rw [List.get?_eq_getElem?] at hk
      exact (List.getElem?_eq_some_iff.mp hk).1
    unfold scalePageContent
    simp only [hd]
    rw [if_neg (by omega), if_neg (by omega)]
    have : ((k : ℤ) + 1 - 1).toNat = k := by omega
    rw [this, hk]
  · simp only [scaleAllPages, hd]
  · intro hw hh hdeg
    obtain ⟨w, h⟩ := pageDim
    simp only at hw hh hdeg
    rw [insetScale_eq_min]
    have hc := twoMargin_le
    rcases hdeg with hdeg | hdeg
    · exact (min_le_left _ _).trans (roundF64_nonpos _
        (div_nonpos_of_nonpos_of_nonneg (roundF64_nonpos _ (by linarith)) hw.le))
    · exact (min_le_right _ _).trans (roundF64_nonpos _
        (div_nonpos_of_nonpos_of_nonneg (roundF64_nonpos _ (by linarith)) hh.le))

/-- The 20 x 20 point page: no error, and a scale that is not positive. -/
theorem inset_geometry_never_rejects_witness :
    (applyContentTransformation tinyDoc 1 { Width := 20, Height := 20 }).2 = none ∧
    scalePageContent tinyDoc 1 = some (some (insetScale { Width := 20, Height := 20 }), none) ∧
    (scaleAllPages tinyDoc).2 = none ∧
    insetScale { Width := 20, Height := 20 } ≤ 0 := by
  have h := inset_geometry_never_rejects tinyDoc [{ Width := 20, Height := 20 }] 0
    { Width := 20, Height := 20 } rfl rfl
  refine ⟨h.1, h.2.1, h.2.2.1, h.2.2.2 (by norm_num) (by norm_num) ?_⟩
  left
  rw [marginPoints_value]; norm_num

/-- C8: `ProcessPDF` tries `CreateMarginsForLetterXpress`, then
`CreateMarginsWithImageMagick`, then `scaleContentWithImport`, each on the file
system the failed one before left behind, and stops at the first success: its
result is the result of the first strategy that succeeds (of the last one when
none does), so it succeeds iff one of the three does and nothing runs after the
first success. -/
theorem processPDF_first_success_wins (env : Env) (inputFile outputFile : String) (fs : FS) :
    let r1 := CreateMarginsForLetterXpress env inputFile outputFile fs
    let r2 := CreateMarginsWithImageMagick env inputFile outputFile r1.1
    let r3 := scaleContentWithImport env inputFile outputFile r2.1
    ProcessPDF env inputFile outputFile fs =
        (if r1.2.isNone then r1 else if r2.2.isNone then r2 else r3) ∧
    ((ProcessPDF env inputFile outputFile fs).2 = none ↔
        (r1.2 = none ∨ r2.2 = none ∨ r3.2 = none)) := by
  intro r1 r2 r3
  have key : ProcessPDF env inputFile outputFile fs =
      (if r1.2.isNone then r1 else if r2.2.isNone then r2 else r3) := by
    simp only [ProcessPDF, addMarginsWithNUp, CreateMargins]
    rcases h1 : CreateMarginsForLetterXpress env inputFile outputFile fs with ⟨fs1, _ | e1⟩
    · simp [r1, h1]
    · rcases h2 : CreateMarginsWithImageMagick env inputFile outputFile fs1 with ⟨fs2, _ | e2⟩
      · simp [r1, r2, h1, h2]
      · simp [r1, r2, r3, h1, h2]
  refine ⟨key, ?_⟩
  rw [key]
  rcases h1 : r1.2 with _ | e1
  · simp [h1]
  · rcases h2 : r2.2 with _ | e2
    · simp [h1, h2]
    · simp [h1, h2]

/-- C9, as stated, fails: without ImageMagick and without the input file all
three strategies fail, and the error `ProcessPDF` returns is the one of
`scaleContentWithImport`; the errors of the two ImageMagick strategies cannot be
recovered from it. -/
theorem processPDF_error_not_aggregated :
    (CreateMarginsForLetterXpress noToolsEnv "in.pdf" "out.pdf" emptyFS).2 =
      some ["imagemagick not available", "exec: executable file not found in $PATH"] ∧
    (CreateMarginsWithImageMagick noToolsEnv "in.pdf" "out.pdf" emptyFS).2 =
      some ["imagemagick not available", "exec: executable file not found in $PATH"] ∧
    (ProcessPDF noToolsEnv "in.pdf" "out.pdf" emptyFS).2 =
      some ["failed to open input file", "open in.pdf: no such file or directory"] ∧
    ¬ GoError.Contains ["failed to open input file", "open in.pdf: no such file or directory"]
      ["imagemagick not available", "exec: executable file not found in $PATH"] ∧
    "imagemagick not available" ∉
      ["failed to open input file", "open in.pdf: no such file or directory"] := by
  refine ⟨rfl, rfl, ?_, by decide, by decide⟩
  simp only [ProcessPDF, addMarginsWithNUp, CreateMargins, CreateMarginsForLetterXpress,
    CreateMarginsWithImageMagick, noToolsEnv, scaleContentWithImport, osOpen, emptyFS]
  decide

/-- C9, amended: when `CreateMarginsForLetterXpress` and
`CreateMarginsWithImageMagick` both fail, `ProcessPDF` returns exactly what the
final fallback `scaleContentWithImport` returns: its error alone, the two earlier
errors are dropped.  (`ProcessPDFSimple` returns a fixed error instead.) -/
theorem processPDF_returns_last_error (env : Env) (inputFile outputFile : String) (fs : FS)
    (e1 e2 : GoError)
    (h1 : (CreateMarginsForLetterXpress env inputFile outputFile fs).2 = some e1)
    (h2 : (CreateMarginsWithImageMagick env inputFile outputFile
      (CreateMarginsForLetterXpress env inputFile outputFile fs).1).2 = some e2) :
    ProcessPDF env inputFile outputFile fs =
      scaleContentWithImport env inputFile outputFile
        (CreateMarginsWithImageMagick env inputFile outputFile
          (CreateMarginsForLetterXpress env inputFile outputFile fs).1).1 ∧
    (ProcessPDFSimple env inputFile outputFile fs).2 =
      some (errorf "failed to create margins with any available method") := by
  simp only [ProcessPDF, ProcessPDFSimple, addMarginsWithNUp, CreateMargins]
  rcases h : CreateMarginsForLetterXpress env inputFile outputFile fs with ⟨fs1, r1⟩
  rw [h] at h1 h2
  simp only at h1 h2
  subst h1
  dsimp only
  rcases h' : CreateMarginsWithImageMagick env inputFile outputFile fs1 with ⟨fs2, r2⟩
  rw [h'] at h2
  simp only at h2
  subst h2
  exact ⟨rfl, rfl⟩

/-- Without ImageMagick and without the input file: the returned error is the
one of the final fallback. -/
theorem processPDF_returns_last_error_witness :
    (ProcessPDF noToolsEnv "in.pdf" "out.pdf" emptyFS).2 =
      (scaleContentWithImport noToolsEnv "in.pdf" "out.pdf" emptyFS).2 ∧
    (ProcessPDFSimple noToolsEnv "in.pdf" "out.pdf" emptyFS).2 =
      some ["failed to create margins with any available method"] := by
  have h := processPDF_returns_last_error noToolsEnv "in.pdf" "out.pdf" emptyFS
    ["imagemagick not available", "exec: executable file not found in $PATH"]
    ["imagemagick not available", "exec: executable file not found in $PATH"] rfl rfl
  exact ⟨congrArg Prod.snd h.1, h.2⟩

/-- C10 (the code departs from it): on an input file pdfcpu cannot parse,
`scaleContentWithImport` and `addMarginsUsingNUp` return an error and leave a
new, empty file at the output path, where no file was before;
`CreateMarginsWithPDFCPU` returns its error without touching that path. -/
theorem failed_strategy_leaves_empty_output :
    brokenInputFS "out.pdf" = none ∧
    (scaleContentWithImport noToolsEnv "in.pdf" "out.pdf" brokenInputFS).2 =
      some ["failed to read PDF context", "pdfcpu: malformed PDF"] ∧
    (scaleContentWithImport noToolsEnv "in.pdf" "out.pdf" brokenInputFS).1 "out.pdf" =
      some "" ∧
    (addMarginsUsingNUp noToolsEnv "in.pdf" "out.pdf" brokenInputFS).2 =
      some ["failed to read PDF context", "pdfcpu: malformed PDF"] ∧
    (addMarginsUsingNUp noToolsEnv "in.pdf" "out.pdf" brokenInputFS).1 "out.pdf" =
      some "" ∧
    (CreateMarginsWithPDFCPU noToolsEnv "in.pdf" "out.pdf" brokenInputFS).map
        (fun r => (r.1 "out.pdf", r.2)) =
      some (none, some ["failed to read PDF context", "pdfcpu: malformed PDF"]) := by
  refine ⟨by decide, ?_, ?_, ?_, ?_, ?_⟩ <;>
    simp [scaleContentWithImport, addMarginsUsingNUp, CreateMarginsWithPDFCPU, osOpen,
      osCreate, readAll, noToolsEnv, brokenInputFS, FS.write, wrapf]

/-! ## Auxiliary lemmas, continued -/

theorem utf8ByteSize_pdf_header (rest : String) :
    ("%PDF" ++ rest).utf8ByteSize = rest.utf8ByteSize + 4 := by
  have h : ("%PDF" ++ rest) = String.mk ('%' :: 'P' :: 'D' :: 'F' :: rest.data) := by
    apply String.ext; simp
  rw [h]
  simp only [String.utf8ByteSize, String.utf8ByteSize.go]
  have e1 : Char.utf8Size '%' = 1 := by decide
  have e2 : Char.utf8Size 'P' = 1 := by decide
  have e3 : Char.utf8Size 'D' = 1 := by decide
  have e4 : Char.utf8Size 'F' = 1 := by decide
  rw [e1, e2, e3, e4]

theorem pdf_header_iff (content : String) :
    "%PDF".data.isPrefixOf content.data = true ↔ ∃ rest : String, content = "%PDF" ++ rest := by
  rw [List.isPrefixOf_iff_prefix]
  constructor
  · rintro ⟨t, ht⟩
    exact ⟨String.mk t, String.ext (by simp [← ht])⟩
  · rintro ⟨rest, rfl⟩
    exact ⟨rest.data, by simp⟩

theorem addMarginsToPage_second_call (ctx : Context) (pageNum : ℤ) (m : ℚ)
    (pageDict : Dict) (e0 e1 e2 e3 : Object) (more : List Object) (x0 y0 x1 y1 : ℚ)
    (len : ℤ) (bytes : String)
    (hpd : ctx.PageDict pageNum = .ok pageDict)
    (hmb : pageDict.Find "MediaBox" = some (.Array (e0 :: e1 :: e2 :: e3 :: more)))
    (h0 : numericValue e0 = some x0) (h1 : numericValue e1 = some y0)
    (h2 : numericValue e2 = some x1) (h3 : numericValue e3 = some y1)
    (hc : pageDict.Find "Contents" = some (.StreamDict len bytes)) :
    ∃ ctx1 d1 len1,
      addMarginsToPage ctx pageNum m = some (ctx1, none) ∧
      ctx1.PageDict pageNum = .ok d1 ∧
      d1.Find "MediaBox" =
        some (.Array [.Float x0, .Float y0, .Float (x1 + 2 * m), .Float (y1 + 2 * m)]) ∧
      d1.Find "Contents" = some (.StreamDict len1
        (translateOperator m ++ "% Existing content preserved\n" ++ "\nQ\n")) := by
  let box := Object.Array [.Float x0, .Float y0, .Float (x1 + 2 * m), .Float (y1 + 2 * m)]
  let d1 := pageDict.Update "MediaBox" box
  have hpd1 : (ctx.setPageDict pageNum d1).PageDict pageNum = .ok d1 :=
    Context.pageDict_setPageDict ctx pageNum pageDict d1 hpd
  have hc1 : d1.Find "Contents" = some (.StreamDict len bytes) := by
    show (pageDict.Update "MediaBox" box).Find "Contents" = _
    rw [Dict.find_update_of_ne _ _ _ _ (by decide), hc]
  have hbody := getPageContent_streamDict _ pageNum d1 len bytes hpd1 hc1
  have h := addMarginsToPage_ok ctx pageNum m pageDict e0 e1 e2 e3 more x0 y0 x1 y1
    hpd hmb h0 h1 h2 h3
  simp only [hbody] at h
  let content := translateOperator m ++ "% Existing content preserved\n" ++ "\nQ\n"
  let d2 := d1.Update "Contents" (.StreamDict (content.utf8ByteSize : ℤ) content)
  refine ⟨(ctx.setPageDict pageNum d1).setPageDict pageNum d2, d2,
    (content.utf8ByteSize : ℤ), h, ?_, ?_, ?_⟩
  · exact Context.pageDict_setPageDict _ pageNum _ _ hpd1
  · show (d1.Update "Contents" _).Find "MediaBox" = some box
    rw [Dict.find_update_of_ne _ _ _ _ (by decide)]
    exact Dict.find_update _ _ _ (by simp [box])
  · exact Dict.find_update _ _ _ (by simp)

/-! ## Lemmas on paths -/

theorem splitSep_ne_nil (p : List Char) : splitSep p ≠ [] := by
  induction p with
  | nil => simp [splitSep]
  | cons c cs ih =>
    unfold splitSep
    split
    · simp
    · split
      · simp
      · simp

theorem splitSep_append_sep (a b : List Char) :
    splitSep (a ++ '/' :: b) = splitSep a ++ splitSep b := by
  induction a with
  | nil => simp [splitSep]
  | cons c cs ih =>
    by_cases hc : c = '/'
    · subst hc
      simp [splitSep, ih]
    · have h1 : splitSep (c :: cs ++ '/' :: b) =
          match splitSep (cs ++ '/' :: b) with
          | [] => [[c]]
          | x :: xs => (c :: x) :: xs := by
        simp [splitSep, hc]
      have h2 : splitSep (c :: cs) =
          match splitSep cs with
          | [] => [[c]]
          | x :: xs => (c :: x) :: xs := by
        simp [splitSep, hc]
      rw [h1, h2, ih]
      cases h : splitSep cs with
      | nil => exact absurd h (splitSep_ne_nil cs)
      | cons x xs => simp

theorem splitSep_of_not_mem (c : List Char) (h : '/' ∉ c) : splitSep c = [c] := by
  induction c with
  | nil => simp [splitSep]
  | cons x xs ih =>
    have hx : x ≠ '/' := fun e => h (by simp [e])
    have hxs : '/' ∉ xs := fun e => h (by simp [e])
    simp [splitSep, hx, ih hxs]

theorem not_mem_of_mem_splitSep (p : List Char) : ∀ c ∈ splitSep p, '/' ∉ c := by
  induction p with
  | nil => simp [splitSep]
  | cons x xs ih =>
    by_cases hx : x = '/'
    · subst hx
      intro c hc
      simp only [splitSep, if_true, List.mem_cons] at hc
      rcases hc with rfl | hc
      · simp
      · exact ih c hc
    · intro c hc
      have h2 : splitSep (x :: xs) =
          match splitSep xs with
          | [] => [[x]]
          | y :: ys => (x :: y) :: ys := by
        simp [splitSep, hx]
      rw [h2] at hc
      cases h : splitSep xs with
      | nil => exact absurd h (splitSep_ne_nil xs)
      | cons y ys =>
        rw [h] at hc ih
        simp only [List.mem_cons] at hc
        rcases hc with rfl | hc
        · have := ih y (by simp)
          simp only [List.mem_cons, not_or]
          exact ⟨fun e => hx e.symm, this⟩
        · exact ih c (by simp [hc])

theorem upto_append_after (p : List Char) : uptoLastSep p ++ afterLastSep p = p := by
  unfold uptoLastSep afterLastSep
  rw [← List.reverse_append, List.takeWhile_append_dropWhile, List.reverse_reverse]

theorem not_mem_afterLastSep (p : List Char) : '/' ∉ afterLastSep p := by
  unfold afterLastSep
  intro h
  rw [List.mem_reverse] at h
  have := List.mem_takeWhile_imp h
  simp at this

theorem takeWhile_append_of_all {α : Type} (q : α → Bool) (a b : List α)
    (ha : ∀ x ∈ a, q x = true) (hb : b = [] ∨ ∃ y ys, b = y :: ys ∧ q y = false) :
    (a ++ b).takeWhile q = a := by
  induction a with
  | nil =>
    rcases hb with rfl | ⟨y, ys, rfl, hy⟩
    · simp
    · simp [List.takeWhile, hy]
  | cons x xs ih =>
    have hx : q x = true := ha x (by simp)
    simp only [List.cons_append, List.takeWhile_cons, hx, if_true]
    rw [ih (fun z hz => ha z (by simp [hz]))]

theorem dropWhile_append_of_all {α : Type} (q : α → Bool) (a b : List α)
    (ha : ∀ x ∈ a, q x = true) (hb : b = [] ∨ ∃ y ys, b = y :: ys ∧ q y = false) :
    (a ++ b).dropWhile q = b := by
  induction a with
  | nil =>
    rcases hb with rfl | ⟨y, ys, rfl, hy⟩
    · simp
    · simp [List.dropWhile, hy]
  | cons x xs ih =>
    have hx : q x = true := ha x (by simp)
    simp only [List.cons_append, List.dropWhile_cons, hx, if_true]
    rw [ih (fun z hz => ha z (by simp [hz]))]

theorem reverse_endsWithSep (P : List Char) (hP : EndsWithSep P) :
    P.reverse = [] ∨ ∃ y ys, P.reverse = y :: ys ∧ (fun c => decide (c ≠ '/')) y = false := by
  rcases hP with rfl | ⟨f, rfl⟩
  · left; simp
  · right; exact ⟨'/', f.reverse, by simp, by simp⟩

theorem afterLastSep_append (P c : List Char) (hP : EndsWithSep P) (hc : '/' ∉ c) :
    afterLastSep (P ++ c) = c := by
  unfold afterLastSep
  rw [List.reverse_append,
    takeWhile_append_of_all _ c.reverse P.reverse
      (fun x hx => by
        have : x ≠ '/' := fun e => hc (by rw [← e]; exact List.mem_reverse.mp hx)
        simpa using this)
      (reverse_endsWithSep P hP)]
  simp

theorem uptoLastSep_append (P c : List Char) (hP : EndsWithSep P) (hc : '/' ∉ c) :
    uptoLastSep (P ++ c) = P := by
  unfold uptoLastSep
  rw [List.reverse_append,
    dropWhile_append_of_all _ c.reverse P.reverse
      (fun x hx => by
        have : x ≠ '/' := fun e => hc (by rw [← e]; exact List.mem_reverse.mp hx)
        simpa using this)
      (reverse_endsWithSep P hP)]
  simp

theorem afterLastSep_of_not_mem (c : List Char) (hc : '/' ∉ c) : afterLastSep c = c := by
  simpa using afterLastSep_append [] c (Or.inl rfl) hc

theorem endsWithSep_uptoLastSep (p : List Char) : EndsWithSep (uptoLastSep p) := by
  unfold uptoLastSep EndsWithSep
  cases h : p.reverse.dropWhile (fun c => decide (c ≠ '/')) with
  | nil => left; simp
  | cons y ys =>
    right
    have hy := List.head_dropWhile_not (fun c => decide (c ≠ '/')) p.reverse
      (by rw [h]; simp)
    simp only [h, List.head_cons] at hy
    have : y = '/' := by simpa using hy
    exact ⟨ys.reverse, by simp [this]⟩

theorem extChars_converted (x : List Char) :
    extChars (x ++ convertedSuffix) = ".pdf".data := by
  unfold extChars convertedSuffix
  simp [List.takeWhile]

theorem baseChars_append (P c : List Char) (hP : EndsWithSep P) (hc : '/' ∉ c)
    (hne : c ≠ []) : baseChars (P ++ c) = c := by
  unfold baseChars
  rw [if_neg (by simp [hne])]
  have hstrip : ((P ++ c).reverse.dropWhile (fun c => decide (c = '/'))).reverse = P ++ c := by
    rw [List.reverse_append]
    obtain ⟨l, hl⟩ : ∃ l, c.reverse = l := ⟨_, rfl⟩
    cases l with
    | nil => simp at hl; exact absurd hl hne
    | cons y ys =>
      have hy : y ≠ '/' := fun e => hc (by
        rw [← e]; exact List.mem_reverse.mp (by rw [hl]; simp))
      rw [hl]
      simp only [List.cons_append, List.dropWhile_cons]
      rw [if_neg (by simpa using hy)]
      rw [← List.cons_append, ← hl, ← List.reverse_append, List.reverse_reverse]
  simp only [hstrip]
  rw [afterLastSep_append P c hP hc, if_neg hne]

theorem cleanStep_normal (r : Bool) (st : List (List Char)) (c : List Char)
    (hc : IsNormal c) : cleanStep r st c = st ++ [c] := by
  obtain ⟨h1, h2, h3, _⟩ := hc
  unfold cleanStep
  rw [if_neg (by simp [h1, h2]), if_neg (by simpa [dotdot] using h3)]

theorem joinElems_append_singleton (st : List (List Char)) (c : List Char) (hst : st ≠ []) :
    joinElems (st ++ [c]) = joinElems st ++ '/' :: c := by
  induction st with
  | nil => exact absurd rfl hst
  | cons x xs ih =>
    cases xs with
    | nil => simp [joinElems]
    | cons y ys =>
      have := ih (by simp)
      simp only [List.cons_append] at this
      show x ++ '/' :: joinElems (y :: (ys ++ [c])) = _
      rw [this]
      simp [joinElems]

theorem renderPath_append_singleton (r : Bool) (st : List (List Char)) (c : List Char) :
    renderPath r (st ++ [c]) = dirPart r st ++ c := by
  unfold renderPath dirPart
  by_cases hst : st = []
  · subst hst
    cases r <;> simp [joinElems]
  · cases r <;> simp [hst, joinElems_append_singleton st c hst]

theorem endsWithSep_dirPart (r : Bool) (st : List (List Char)) : EndsWithSep (dirPart r st) := by
  unfold dirPart EndsWithSep
  by_cases hst : st = []
  · cases r
    · left; simp [hst]
    · right; exact ⟨[], by simp [hst]⟩
  · cases r
    · right; exact ⟨joinElems st, by simp [hst]⟩
    · right; exact ⟨'/' :: joinElems st, by simp [hst]⟩

/-- The last element of a path survives `filepath.Clean` when it is normal. -/
theorem cleanChars_last_elem (F c : List Char) (hc : IsNormal c) :
    ∃ r st, cleanChars (F ++ '/' :: c) = dirPart r st ++ c ∧
      r = decide ((F ++ '/' :: c).head? = some '/') ∧
      st = (splitSep F).foldl (cleanStep r) [] := by
  refine ⟨_, _, ?_, rfl, rfl⟩
  unfold cleanChars
  rw [if_neg (by simp)]
  simp only
  rw [splitSep_append_sep, splitSep_of_not_mem c hc.2.2.2, List.foldl_append]
  simp only [List.foldl_cons, List.foldl_nil]
  rw [cleanStep_normal _ _ c hc, renderPath_append_singleton]

theorem isNormal_of_not_special (e : List Char) (h1 : e ≠ []) (h2 : e ≠ ['.'])
    (h3 : e ≠ dotdot) (h4 : '/' ∉ e) : IsNormal e := ⟨h1, h2, h3, h4⟩

theorem cleanStack_nil (r : Bool) : CleanStack r [] := ⟨0, [], by simp, fun _ => rfl, by simp⟩

theorem cleanStep_preserves (r : Bool) (st : List (List Char)) (e : List Char)
    (hst : CleanStack r st) (he : '/' ∉ e) : CleanStack r (cleanStep r st e) := by
  obtain ⟨k, ns, rfl, hk, hns⟩ := hst
  unfold cleanStep
  split
  · exact ⟨k, ns, rfl, hk, hns⟩
  · rename_i h12
    rw [not_or] at h12
    split
    · rename_i hdd
      -- the element `..`
      rcases List.eq_nil_or_concat ns with hnil | ⟨ns1, top, hcat⟩
      · subst hnil
        simp only [List.append_nil]
        cases k with
        | zero =>
          simp only [List.replicate_zero, List.getLast?_nil]
          cases r
          · exact ⟨1, [], by simp [hdd, dotdot], by simp, by simp⟩
          · exact cleanStack_nil true
        | succ j =>
          have hr : r = false := by
            cases r
            · rfl
            · exact absurd (hk rfl) (by simp)
          have hlast : (List.replicate (j + 1) dotdot).getLast? = some dotdot := by
            rw [List.replicate_succ']
            simp
          simp only [hlast]
          rw [if_pos (by rfl)]
          refine ⟨j + 2, [], ?_, by simp [hr], by simp⟩
          rw [hdd]
          show List.replicate (j + 1) dotdot ++ [dotdot] = _
          rw [← List.replicate_succ']
          simp
      · rw [List.concat_eq_append] at hcat
        subst hcat
        have hlast : (List.replicate k dotdot ++ (ns1 ++ [top])).getLast? = some top := by
          rw [← List.append_assoc]
          simp
        have htop : IsNormal top := hns top (by simp)
        simp only [hlast]
        rw [if_neg (by simpa [dotdot] using htop.2.2.1)]
        refine ⟨k, ns1, ?_, hk, fun c hc => hns c (by simp [hc])⟩
        rw [← List.append_assoc, List.dropLast_concat]
    · rename_i hdd
      refine ⟨k, ns ++ [e], by simp, hk, ?_⟩
      intro c hc
      rcases List.mem_append.mp hc with hc | hc
      · exact hns c hc
      · simp only [List.mem_singleton] at hc
        subst hc
        exact ⟨h12.1, h12.2, by simpa [dotdot] using hdd, he⟩

theorem foldl_cleanStep_preserves (r : Bool) (comps : List (List Char))
    (hc : ∀ c ∈ comps, '/' ∉ c) :
    ∀ st, CleanStack r st → CleanStack r (comps.foldl (cleanStep r) st) := by
  induction comps with
  | nil => intro st h; exact h
  | cons x xs ih =>
    intro st h
    simp only [List.foldl_cons]
    exact ih (fun c hc' => hc c (by simp [hc'])) _
      (cleanStep_preserves r st x h (hc x (by simp)))

/-- Every cleaned path is written from a stack of the clean shape. -/
theorem cleanChars_eq_render (q : List Char) :
    ∃ r st, cleanChars q = renderPath r st ∧ CleanStack r st := by
  unfold cleanChars
  by_cases hq : q = []
  · rw [if_pos hq]
    exact ⟨false, [], by simp [renderPath], cleanStack_nil false⟩
  · rw [if_neg hq]
    exact ⟨_, _, rfl, foldl_cleanStep_preserves _ _ (not_mem_of_mem_splitSep q) _
      (cleanStack_nil _)⟩

theorem cleanStack_elem (r : Bool) (st : List (List Char)) (h : CleanStack r st) :
    ∀ c ∈ st, c ≠ [] ∧ '/' ∉ c := by
  obtain ⟨k, ns, rfl, _, hns⟩ := h
  intro c hc
  rcases List.mem_append.mp hc with hc | hc
  · have := (List.mem_replicate.mp hc).2
    subst this
    simp [dotdot]
  · exact ⟨(hns c hc).1, (hns c hc).2.2.2⟩

theorem joinElems_head (st : List (List Char)) (hst : st ≠ [])
    (h : ∀ c ∈ st, c ≠ [] ∧ '/' ∉ c) :
    ∃ y ys, joinElems st = y :: ys ∧ y ≠ '/' := by
  cases st with
  | nil => exact absurd rfl hst
  | cons x xs =>
    obtain ⟨hx1, hx2⟩ := h x (by simp)
    cases x with
    | nil => exact absurd rfl hx1
    | cons y ys =>
      have hy : y ≠ '/' := fun e => hx2 (by simp [e])
      cases xs with
      | nil => exact ⟨y, ys, by simp [joinElems], hy⟩
      | cons z zs => exact ⟨y, ys ++ '/' :: joinElems (z :: zs), by simp [joinElems], hy⟩

theorem renderPath_ne_nil (r : Bool) (st : List (List Char)) (h : CleanStack r st) :
    renderPath r st ≠ [] := by
  unfold renderPath
  cases r
  · by_cases hst : st = []
    · simp [hst]
    · obtain ⟨y, ys, hj, _⟩ := joinElems_head st hst (cleanStack_elem _ st h)
      simp [hst, hj]
  · simp

theorem cleanChars_ne_nil (q : List Char) : cleanChars q ≠ [] := by
  obtain ⟨r, st, h, hs⟩ := cleanChars_eq_render q
  rw [h]
  exact renderPath_ne_nil r st hs

theorem foldl_cleanStep_normal (r : Bool) (ns : List (List Char))
    (h : ∀ c ∈ ns, IsNormal c) :
    ∀ acc, ns.foldl (cleanStep r) acc = acc ++ ns := by
  induction ns with
  | nil => intro acc; simp
  | cons x xs ih =>
    intro acc
    simp only [List.foldl_cons]
    rw [cleanStep_normal r acc x (h x (by simp)), ih (fun c hc => h c (by simp [hc]))]
    simp

theorem cleanStep_dotdot (j : ℕ) :
    cleanStep false (List.replicate j dotdot) dotdot = List.replicate (j + 1) dotdot := by
  unfold cleanStep
  rw [if_neg (by simp [dotdot]), if_pos (by rfl)]
  cases j with
  | zero => simp
  | succ i =>
    have hlast : (List.replicate (i + 1) dotdot).getLast? = some dotdot := by
      rw [List.replicate_succ']
      simp
    simp only [hlast]
    rw [if_pos (by rfl), ← List.replicate_succ']

theorem foldl_cleanStep_dotdots (k : ℕ) :
    ∀ j, (List.replicate k dotdot).foldl (cleanStep false) (List.replicate j dotdot) =
      List.replicate (j + k) dotdot := by
  induction k with
  | zero => intro j; simp
  | succ i ih =>
    intro j
    rw [List.replicate_succ, List.foldl_cons, cleanStep_dotdot, ih (j + 1)]
    congr 1
    omega

theorem foldl_cleanStack (r : Bool) (st : List (List Char)) (h : CleanStack r st) :
    st.foldl (cleanStep r) [] = st := by
  obtain ⟨k, ns, rfl, hk, hns⟩ := h
  rw [List.foldl_append]
  cases r
  · have := foldl_cleanStep_dotdots k 0
    simp only [List.replicate_zero, Nat.zero_add] at this
    rw [this, foldl_cleanStep_normal false ns hns]
  · have hk0 : k = 0 := hk rfl
    subst hk0
    simp only [List.replicate_zero, List.foldl_nil]
    rw [foldl_cleanStep_normal true ns hns]

theorem splitSep_joinElems (st : List (List Char)) (hst : st ≠ [])
    (h : ∀ c ∈ st, '/' ∉ c) : splitSep (joinElems st) = st := by
  induction st with
  | nil => exact absurd rfl hst
  | cons x xs ih =>
    cases xs with
    | nil => simpa [joinElems] using splitSep_of_not_mem x (h x (by simp))
    | cons y ys =>
      show splitSep (x ++ '/' :: joinElems (y :: ys)) = _
      rw [splitSep_append_sep, splitSep_of_not_mem x (h x (by simp)),
        ih (by simp) (fun c hc => h c (by simp [hc]))]
      simp

theorem cleanStep_nil (r : Bool) (st : List (List Char)) : cleanStep r st [] = st := by
  simp [cleanStep]

theorem cleanStep_dot (r : Bool) (st : List (List Char)) : cleanStep r st ['.'] = st := by
  simp [cleanStep]

theorem foldl_split_render (r : Bool) (st : List (List Char)) (h : CleanStack r st) :
    (splitSep (renderPath r st)).foldl (cleanStep r) [] = st := by
  have hel := cleanStack_elem r st h
  unfold renderPath
  cases r
  · by_cases hst : st = []
    · subst hst
      simp [splitSep, cleanStep_dot]
    · simp only [hst, if_false, Bool.false_eq_true]
      rw [splitSep_joinElems st hst (fun c hc => (hel c hc).2)]
      exact foldl_cleanStack false st h
  · simp only [if_true]
    by_cases hst : st = []
    · subst hst
      simp [splitSep, joinElems, cleanStep_nil]
    · have : splitSep ('/' :: joinElems st) = [] :: splitSep (joinElems st) := by
        simp [splitSep]
      rw [this, splitSep_joinElems st hst (fun c hc => (hel c hc).2)]
      simp only [List.foldl_cons, cleanStep_nil]
      exact foldl_cleanStack true st h

theorem head_renderPath (r : Bool) (st : List (List Char)) (h : CleanStack r st)
    (tail : List Char) :
    decide ((renderPath r st ++ tail).head? = some '/') = r := by
  unfold renderPath
  cases r
  · by_cases hst : st = []
    · simp [hst]
    · obtain ⟨y, ys, hj, hy⟩ := joinElems_head st hst (cleanStack_elem _ st h)
      simp [hst, hj, hy]
  · simp

theorem foldl_split_render_sep (r : Bool) (st : List (List Char)) (h : CleanStack r st) :
    (splitSep (renderPath r st ++ ['/'])).foldl (cleanStep r) [] = st := by
  rw [splitSep_append_sep, List.foldl_append, foldl_split_render r st h]
  simp [splitSep, cleanStep_nil]

theorem cleanChars_dirPart (r : Bool) (st : List (List Char)) (h : CleanStack r st) :
    cleanChars (dirPart r st) = renderPath r st := by
  by_cases hst : st = []
  · subst hst
    cases r
    · simp [dirPart, cleanChars, renderPath]
    · simp [dirPart, cleanChars, renderPath, splitSep, cleanStep_nil, joinElems]
  · have hd : dirPart r st = renderPath r st ++ ['/'] := by
      cases r <;> simp [dirPart, renderPath, hst]
    rw [hd]
    unfold cleanChars
    rw [if_neg (by simp)]
    simp only
    rw [head_renderPath r st h ['/'], foldl_split_render_sep r st h]

theorem baseChars_shape (p : List Char) : baseChars p = ['/'] ∨ '/' ∉ baseChars p := by
  unfold baseChars
  split
  · right; simp
  · simp only
    split
    · left; rfl
    · right; exact not_mem_afterLastSep _

theorem trimSuffixChars_subset (s suffix : List Char) (x : Char)
    (hx : x ∈ trimSuffixChars s suffix) : x ∈ s := by
  unfold trimSuffixChars at hx
  split at hx
  · exact List.mem_of_mem_take hx
  · exact hx

theorem isNormal_converted (x : List Char) (hx : '/' ∉ x) : IsNormal (x ++ convertedSuffix) := by
  have hlen : (x ++ convertedSuffix).length = x.length + 16 := by
    simp [convertedSuffix]
  refine ⟨?_, ?_, ?_, ?_⟩
  · intro h; rw [h] at hlen; simp at hlen
  · intro h; rw [h] at hlen; simp at hlen
  · intro h; rw [h] at hlen; simp [dotdot] at hlen
  · intro h
    rcases List.mem_append.mp h with h | h
    · exact hx h
    · simp [convertedSuffix] at h

/-- The shape of the generated path: the cleaned directory of the input, then
the last element of the stem with the suffix. -/
theorem genChars_shape (p : List Char) :
    ∃ r st, CleanStack r st ∧ dirChars p = renderPath r st ∧
      genChars p = dirPart r st ++ (afterLastSep (stemChars p) ++ convertedSuffix) := by
  obtain ⟨r, st, hd, hs⟩ := cleanChars_eq_render (uptoLastSep p)
  refine ⟨r, st, hs, hd, ?_⟩
  have hne : dirChars p ≠ [] := cleanChars_ne_nil _
  unfold genChars joinChars
  rw [if_pos hne]
  have hd' : dirChars p = renderPath r st := hd
  rw [hd']
  rcases baseChars_shape p with hb | hb
  · -- the input consists of separators only
    have hstem : stemChars p = ['/'] := by
      unfold stemChars
      rw [hb]
      decide
    rw [hstem]
    have hafter : afterLastSep ['/'] = [] := by decide
    rw [hafter]
    simp only [List.nil_append]
    have hrew : renderPath r st ++ '/' :: (['/'] ++ convertedSuffix) =
        (renderPath r st ++ ['/']) ++ '/' :: convertedSuffix := by simp
    rw [hrew]
    obtain ⟨r1, st1, hc, hr1, hst1⟩ :=
      cleanChars_last_elem (renderPath r st ++ ['/']) convertedSuffix
        (by simpa using isNormal_converted [] (by simp))
    rw [hc]
    have hr : r1 = r := by
      rw [hr1, List.append_assoc]
      exact head_renderPath r st hs _
    subst hr
    rw [hst1, foldl_split_render_sep r1 st hs]
  · have hstem : '/' ∉ stemChars p := fun h => hb (trimSuffixChars_subset _ _ _ h)
    rw [afterLastSep_of_not_mem _ hstem]
    obtain ⟨r1, st1, hc, hr1, hst1⟩ :=
      cleanChars_last_elem (renderPath r st) (stemChars p ++ convertedSuffix)
        (isNormal_converted _ hstem)
    rw [hc]
    have hr : r1 = r := by
      rw [hr1]
      exact head_renderPath r st hs _
    subst hr
    rw [hst1, foldl_split_render r1 st hs]

theorem not_mem_converted_tail (x : List Char) (hx : '/' ∉ x) :
    '/' ∉ x ++ convertedSuffix := (isNormal_converted x hx).2.2.2

theorem baseChars_genChars (p : List Char) :
    baseChars (genChars p) = afterLastSep (stemChars p) ++ convertedSuffix := by
  obtain ⟨r, st, _, _, hg⟩ := genChars_shape p
  rw [hg]
  exact baseChars_append _ _ (endsWithSep_dirPart r st)
    (not_mem_converted_tail _ (not_mem_afterLastSep _))
    (isNormal_converted _ (not_mem_afterLastSep _)).1

theorem extChars_genChars (p : List Char) : extChars (genChars p) = ".pdf".data := by
  obtain ⟨r, st, _, _, hg⟩ := genChars_shape p
  rw [hg, ← List.append_assoc]
  exact extChars_converted _

theorem dirChars_genChars (p : List Char) : dirChars (genChars p) = dirChars p := by
  obtain ⟨r, st, hs, hd, hg⟩ := genChars_shape p
  rw [hd, hg]
  unfold dirChars
  rw [uptoLastSep_append _ _ (endsWithSep_dirPart r st)
    (not_mem_converted_tail _ (not_mem_afterLastSep _))]
  exact cleanChars_dirPart r st hs

theorem extChars_isSuffix (x : List Char) : extChars x <:+ x := by
  unfold extChars
  simp only
  split
  · rename_i hmem
    -- the reversed extension is a prefix of the reversed path
    have h1 : x.reverse.takeWhile (fun c => decide (c ≠ '/')) <+: x.reverse :=
      List.takeWhile_prefix _
    set lr := x.reverse.takeWhile (fun c => decide (c ≠ '/')) with hlr
    have h2 : lr.takeWhile (fun c => decide (c ≠ '.')) ++ ['.'] <+: lr := by
      have hsplit := List.takeWhile_append_dropWhile (fun c => decide (c ≠ '.')) lr
      cases hdw : lr.dropWhile (fun c => decide (c ≠ '.')) with
      | nil =>
        rw [hdw, List.append_nil] at hsplit
        have := List.mem_takeWhile_imp (hsplit ▸ hmem)
        simp at this
      | cons y ys =>
        have hy := List.head_dropWhile_not (fun c => decide (c ≠ '.')) lr (by rw [hdw]; simp)
        simp only [hdw, List.head_cons] at hy
        have hy' : y = '.' := by simpa using hy
        subst hy'
        rw [hdw] at hsplit
        exact ⟨ys, by simpa using hsplit⟩
    have h3 := h2.trans h1
    exact List.reverse_prefix.mp (by simpa using h3)
  · exact List.nil_suffix

theorem trimSuffixChars_append (s suffix : List Char) (h : suffix <:+ s) :
    trimSuffixChars s suffix ++ suffix = s := by
  unfold trimSuffixChars
  rw [if_pos (by simpa using h)]
  obtain ⟨t, rfl⟩ := h
  simp

theorem stemChars_append_ext (p : List Char) :
    stemChars p ++ extChars (baseChars p) = baseChars p :=
  trimSuffixChars_append _ _ (extChars_isSuffix _)

theorem extChars_shape (x : List Char) :
    extChars x = [] ∨ ∃ e, extChars x = '.' :: e ∧ '.' ∉ e ∧ '/' ∉ e := by
  unfold extChars
  simp only
  split
  · right
    refine ⟨(x.reverse.takeWhile (fun c => decide (c ≠ '/'))).takeWhile
      (fun c => decide (c ≠ '.')) |>.reverse, by simp, ?_, ?_⟩
    · intro h
      have := List.mem_takeWhile_imp (List.mem_reverse.mp h)
      simp at this
    · intro h
      have h1 := List.mem_reverse.mp h
      have h2 := (List.takeWhile_sublist _).subset h1
      have := List.mem_takeWhile_imp h2
      simp at this
  · left; rfl

theorem baseChars_genChars_ne (p : List Char) : baseChars (genChars p) ≠ baseChars p := by
  rw [baseChars_genChars]
  intro h
  -- the base would end in the suffix, so its extension is `.pdf`
  have hext : extChars (baseChars p) = ".pdf".data := by
    rw [← h]; exact extChars_converted _
  have hstem := stemChars_append_ext p
  rw [hext, ← h] at hstem
  have hsplit : afterLastSep (stemChars p) ++ convertedSuffix =
      (afterLastSep (stemChars p) ++ " - converted".data) ++ ".pdf".data := by
    simp [convertedSuffix]
  rw [hsplit] at hstem
  have hs : stemChars p = afterLastSep (stemChars p) ++ " - converted".data :=
    List.append_cancel_right hstem
  have hno : '/' ∉ afterLastSep (stemChars p) ++ " - converted".data := by
    intro hm
    rcases List.mem_append.mp hm with hm | hm
    · exact not_mem_afterLastSep _ hm
    · simp at hm
  have hafter := afterLastSep_of_not_mem _ hno
  rw [← hs] at hafter
  have hlen := congrArg List.length hs
  rw [hafter] at hlen
  simp at hlen

theorem generateOutputFilename_data (inputFile : String) :
    (GenerateOutputFilename inputFile).data = genChars inputFile.data := by
  simp [GenerateOutputFilename, genChars, stemChars, filepathJoin, filepathDir, filepathBase,
    filepathExt, stringsTrimSuffix, convertedSuffix]

theorem string_eq_of_data {a b : String} (h : a.data = b.data) : a = b := String.ext h

theorem scaleAllPages_runtimePanic_iff (ctx : Context) :
    (scaleAllPages ctx).2 = some runtimePanic ↔ ctx.pageDims = .panic := by
  unfold scaleAllPages
  cases ctx.pageDims with
  | panic => simp
  | error err => simp [wrapf, runtimePanic]
  | ok dims => simp

/-! ## The claims, continued -/

/-- C11 (the code departs from it): with the input opened, the output
created and the document loaded, `scaleContentWithImport` does not serialise
every loaded document.  Where `ctx.PageDims()` panics, as it does on a document
as `api.ReadContext` returns it, `scaleAllPages` does not return, the panic
unwinds through `scaleContentWithImport`, nothing is written and the output
file is left empty.  Only where `ctx.PageDims()` returns does `scaleAllPages`
return (without error when the dimensions are delivered), and then the document
is handed to `WriteContext` as loaded, with no margin applied, and success is
reported exactly when `WriteContext` succeeds. -/
theorem scaleContentWithImport_panics_in_pageDims (env : Env)
    (inputFile outputFile : String) (fs : FS) (ctx : Context)
    (hin : osOpen fs inputFile = none)
    (hcreate : env.createErr outputFile fs = none)
    (hread : env.readContext (readAll (fs.write outputFile "") inputFile) = .ok ctx) :
    (ctx.pageDims = .panic →
      scaleAllPages ctx = ([], some runtimePanic) ∧
      scaleContentWithImport env inputFile outputFile fs =
        (fs.write outputFile "", some runtimePanic) ∧
      (scaleContentWithImport env inputFile outputFile fs).1 outputFile = some "") ∧
    (∀ dims, ctx.pageDims = .ok dims → (scaleAllPages ctx).2 = none) ∧
    (ctx.pageDims ≠ .panic →
      (scaleContentWithImport env inputFile outputFile fs).1 =
        (fs.write outputFile "").write outputFile (env.writeContext ctx).1 ∧
      ((scaleContentWithImport env inputFile outputFile fs).2 = none ↔
        (env.writeContext ctx).2 = none)) := by
  have hopen : ∀ r : FS × Option GoError,
      (match osOpen fs inputFile with
        | some err => (fs, some (wrapf "failed to open input file" err))
        | none => r) = r := by
    intro r; rw [hin]
  refine ⟨?_, ?_, ?_⟩
  · intro hp
    have hs : scaleAllPages ctx = ([], some runtimePanic) := by
      simp only [scaleAllPages, hp]
    have hr : scaleContentWithImport env inputFile outputFile fs =
        (fs.write outputFile "", some runtimePanic) := by
      simp only [scaleContentWithImport, hopen, osCreate, hcreate, hread, hs, if_true]
    refine ⟨hs, hr, ?_⟩
    rw [hr]
    simp [FS.write]
  · intro dims hd
    simp only [scaleAllPages, hd]
  · intro hp
    have hs : (scaleAllPages ctx).2 ≠ some runtimePanic :=
      fun h => hp ((scaleAllPages_runtimePanic_iff ctx).mp h)
    constructor
    · simp only [scaleContentWithImport, hopen, osCreate, hcreate, hread, if_neg hs]
      rcases env.writeContext ctx with ⟨written, _ | werr⟩ <;> rfl
    · simp only [scaleContentWithImport, hopen, osCreate, hcreate, hread, if_neg hs]
      rcases env.writeContext ctx with ⟨written, _ | werr⟩ <;> simp

/-- The file `in.pdf` holding a one-page document, on a machine without
ImageMagick: the fallback, and with it `ProcessPDF`, ends in the panic and
leaves an empty `out.pdf`. -/
theorem scaleContentWithImport_panics_in_pageDims_witness :
    osOpen letterInputFS "in.pdf" = none ∧
    noToolsEnv.readContext (readAll (letterInputFS.write "out.pdf" "") "in.pdf") =
      .ok freshLetterDoc ∧
    scaleAllPages freshLetterDoc = ([], some runtimePanic) ∧
    (scaleContentWithImport noToolsEnv "in.pdf" "out.pdf" letterInputFS).2 =
      some runtimePanic ∧
    (scaleContentWithImport noToolsEnv "in.pdf" "out.pdf" letterInputFS).1 "out.pdf" =
      some "" ∧
    (ProcessPDF noToolsEnv "in.pdf" "out.pdf" letterInputFS).2 = some runtimePanic ∧
    (ProcessPDF noToolsEnv "in.pdf" "out.pdf" letterInputFS).1 "out.pdf" = some "" := by
  have h := (scaleContentWithImport_panics_in_pageDims noToolsEnv "in.pdf" "out.pdf"
    letterInputFS freshLetterDoc rfl rfl rfl).1 rfl
  have hp : ProcessPDF noToolsEnv "in.pdf" "out.pdf" letterInputFS =
      scaleContentWithImport noToolsEnv "in.pdf" "out.pdf" letterInputFS := rfl
  refine ⟨rfl, rfl, h.1, ?_, h.2.2, ?_, ?_⟩
  · rw [h.2.1]
  · rw [hp, h.2.1]
  · rw [hp]; exact h.2.2

/-- C12 (the code departs from it): applying `addMarginsToPage` twice to a
page with a numeric MediaBox [x0, y0, x1, y1] gives the box
[x0, y0, x1 + 4m, y1 + 4m], but the content stream is a single translation
envelope around the comment line `% Existing content preserved`: the second call
does not read the stream the first one wrote, so the envelopes are not nested
and the content is translated by m, not by 2m. -/
theorem addMarginsToPage_twice_single_envelope (ctx : Context) (pageNum : ℤ) (m : ℚ)
    (pageDict : Dict) (e0 e1 e2 e3 : Object) (more : List Object) (x0 y0 x1 y1 : ℚ)
    (hpd : ctx.PageDict pageNum = .ok pageDict)
    (hmb : pageDict.Find "MediaBox" = some (.Array (e0 :: e1 :: e2 :: e3 :: more)))
    (h0 : numericValue e0 = some x0) (h1 : numericValue e1 = some y0)
    (h2 : numericValue e2 = some x1) (h3 : numericValue e3 = some y1) :
    ∃ ctx1 ctx2 d2 len2,
      addMarginsToPage ctx pageNum m = some (ctx1, none) ∧
      addMarginsToPage ctx1 pageNum m = some (ctx2, none) ∧
      ctx2.PageDict pageNum = .ok d2 ∧
      d2.Find "MediaBox" =
        some (.Array [.Float x0, .Float y0, .Float (x1 + 4 * m), .Float (y1 + 4 * m)]) ∧
      d2.Find "Contents" = some (.StreamDict len2
        (translateOperator m ++ "% Existing content preserved\n" ++ "\nQ\n")) := by
  -- the first application
  let box1 := Object.Array [.Float x0, .Float y0, .Float (x1 + 2 * m), .Float (y1 + 2 * m)]
  let d1 := pageDict.Update "MediaBox" box1
  let body1 := (getPageContent (ctx.setPageDict pageNum d1) pageNum).1
  let content1 := translateOperator m ++ body1 ++ "\nQ\n"
  let d1c := d1.Update "Contents" (.StreamDict (content1.utf8ByteSize : ℤ) content1)
  let ctx1 := (ctx.setPageDict pageNum d1).setPageDict pageNum d1c
  have first : addMarginsToPage ctx pageNum m = some (ctx1, none) :=
    addMarginsToPage_ok ctx pageNum m pageDict e0 e1 e2 e3 more x0 y0 x1 y1 hpd hmb h0 h1 h2 h3
  have hpd1 : ctx1.PageDict pageNum = .ok d1c :=
    Context.pageDict_setPageDict _ pageNum _ _
      (Context.pageDict_setPageDict ctx pageNum pageDict _ hpd)
  have hmb1 : d1c.Find "MediaBox" = some (.Array (Object.Float x0 :: Object.Float y0 ::
      Object.Float (x1 + 2 * m) :: Object.Float (y1 + 2 * m) :: [])) := by
    show (d1.Update "Contents" _).Find "MediaBox" = _
    rw [Dict.find_update_of_ne _ _ _ _ (by decide)]
    exact Dict.find_update _ _ _ (by simp [box1])
  have hc1 : d1c.Find "Contents" =
      some (.StreamDict (content1.utf8ByteSize : ℤ) content1) :=
    Dict.find_update _ _ _ (by simp)
  -- the second application, on the page the first one left
  obtain ⟨ctx2, d2, len2, second, hpd2, hc2⟩ :=
    addMarginsToPage_second_call ctx1 pageNum m d1c (.Float x0) (.Float y0)
      (.Float (x1 + 2 * m)) (.Float (y1 + 2 * m)) [] x0 y0 (x1 + 2 * m) (y1 + 2 * m)
      (content1.utf8ByteSize : ℤ) content1 hpd1 hmb1 rfl rfl rfl rfl hc1
  refine ⟨ctx1, ctx2, d2, len2, first, second, hpd2, ?_, hc2.2⟩
  rw [hc2.1]
  have ex : x1 + 2 * m + 2 * m = x1 + 4 * m := by ring
  have ey : y1 + 2 * m + 2 * m = y1 + 4 * m := by ring
  rw [ex, ey]

/-- The US Letter page with the 5 mm margin, twice: the box grows by
4 x 14.173228345 on each axis, the stream holds one envelope. -/
theorem addMarginsToPage_twice_single_envelope_witness :
    ∃ ctx1 ctx2 d2 len2,
      addMarginsToPage usLetterDoc 1 MarginPoints = some (ctx1, none) ∧
      addMarginsToPage ctx1 1 MarginPoints = some (ctx2, none) ∧
      ctx2.PageDict 1 = .ok d2 ∧
      d2.Find "MediaBox" = some (.Array [.Float 0, .Float 0, .Float (612 + 4 * MarginPoints),
        .Float (792 + 4 * MarginPoints)]) ∧
      d2.Find "Contents" = some (.StreamDict len2
        "q\n1.000000 0 0 1.000000 14.173228 14.173228 cm\n% Existing content preserved\n\nQ\n") := by
  obtain ⟨ctx1, ctx2, d2, len2, ha, hb, hc, hd, he⟩ :=
    addMarginsToPage_twice_single_envelope usLetterDoc 1 MarginPoints usLetterPage
      (.Integer 0) (.Integer 0) (.Integer 612) (.Integer 792) [] 0 0 612 792
      usLetterDoc_pageDict (by simp [usLetterPage, Dict.Find])
      (by simp [numericValue]) (by simp [numericValue]) (by simp [numericValue])
      (by simp [numericValue])
  refine ⟨ctx1, ctx2, d2, len2, ha, hb, hc, hd, ?_⟩
  rw [he, translateOperator_marginPoints]
  congr 1

/-- C13: `ValidateInputFile` returns nil exactly when the file name is not
empty, its extension is `.pdf` up to the case of the letters, and the file
exists and starts with the four bytes `%PDF`; in every other case (empty name,
missing file, other extension, empty or shorter file, other header) it returns
an error. -/
theorem validateInputFile_nil_iff (fs : FS) (filename : String) :
    ValidateInputFile fs filename = none ↔
      (filename ≠ "" ∧ stringsToLower (filepathExt filename) = ".pdf" ∧
        ∃ rest : String, fs filename = some ("%PDF" ++ rest)) := by
  unfold ValidateInputFile
  by_cases hname : filename = ""
  · simp [hname]
  rw [if_neg hname]
  cases hfile : fs filename with
  | none => simp
  | some content =>
    rw [if_neg (by simp)]
    by_cases hext : stringsToLower (filepathExt filename) = ".pdf"
    · have hpdf : isPDFFile filename = true := by simp [isPDFFile, hext]
      rw [if_neg (by simp [hpdf])]
      have hopen : osOpen fs filename = none := by simp [osOpen, hfile]
      have hread : readAll fs filename = content := by simp [readAll, hfile]
      simp only [hopen, hread]
      by_cases hhead : "%PDF".data.isPrefixOf content.data = true
      · obtain ⟨rest, hrest⟩ := (pdf_header_iff content).mp hhead
        have hsize : content.utf8ByteSize = rest.utf8ByteSize + 4 := by
          rw [hrest]; exact utf8ByteSize_pdf_header rest
        rw [if_neg (by omega), if_neg (by
          rw [not_or]
          exact ⟨by omega, by simp [hhead]⟩)]
        simp only [true_iff]
        exact ⟨hname, hext, rest, by rw [hrest]⟩
      · have hno : ¬ ∃ rest : String, content = "%PDF" ++ rest := fun h =>
          hhead ((pdf_header_iff content).mpr h)
        constructor
        · intro h
          exfalso
          split at h
          · simp at h
          · rw [if_pos (Or.inr (by simpa using hhead))] at h
            simp at h
        · rintro ⟨_, _, rest, hrest⟩
          exact absurd ⟨rest, by simpa using hrest⟩ hno
    · have hpdf : ¬ isPDFFile filename = true := by simp [isPDFFile, hext]
      rw [if_pos hpdf]
      simp [hext]

/-- C14: when `ValidateInputFile` fails on the input path, `runConversion`
returns that failure wrapped as `input validation failed`, and that is all it
does: the file system is as before (no output file, no effect of any strategy)
and the configuration is untouched, whatever the tools on the machine are; the
result does not depend on the environment `ProcessPDF` would run in. -/
theorem runConversion_rejects_before_strategies (env : Env) (config : Config)
    (inputFile : String) (fs : FS) (err : GoError)
    (hv : ValidateInputFile fs inputFile = some err) :
    (runConversion env config inputFile fs).err = some (wrapf "input validation failed" err) ∧
    (runConversion env config inputFile fs).fs = fs ∧
    (runConversion env config inputFile fs).config = config ∧
    ∀ env1 : Env,
      runConversion env1 config inputFile fs = runConversion env config inputFile fs := by
  have hrun : ∀ e : Env, runConversion e config inputFile fs =
      { config := config, level := setupLogging config, fs := fs,
        err := some (wrapf "input validation failed" err) } := by
    intro e
    unfold runConversion
    simp only [hv]
  refine ⟨?_, ?_, ?_, ?_⟩
  · rw [hrun env]
  · rw [hrun env]
  · rw [hrun env]
  · intro env1
    rw [hrun env1, hrun env]

/-- A 0-byte file and a file without the PDF signature, on a machine where
ImageMagick would produce an output: both are rejected and no file appears. -/
theorem runConversion_rejects_before_strategies_witness :
    (ValidateInputFile zeroByteFS "in.pdf" = some ["cannot read file header", "EOF"] ∧
      (runConversion convertEnv (rootCommandConfig none none) "in.pdf" zeroByteFS).err =
        some ["input validation failed", "cannot read file header", "EOF"] ∧
      (runConversion convertEnv (rootCommandConfig none none) "in.pdf" zeroByteFS).fs =
        zeroByteFS) ∧
    (ValidateInputFile textFileFS "in.pdf" =
        some ["file is not a valid PDF: missing PDF header"] ∧
      (runConversion convertEnv (rootCommandConfig none none) "in.pdf" textFileFS).err =
        some ["input validation failed", "file is not a valid PDF: missing PDF header"] ∧
      (runConversion convertEnv (rootCommandConfig none none) "in.pdf" textFileFS).fs =
        textFileFS) := by
  have h0 : ValidateInputFile zeroByteFS "in.pdf" = some ["cannot read file header", "EOF"] := by
    decide
  have h1 : ValidateInputFile textFileFS "in.pdf" =
      some ["file is not a valid PDF: missing PDF header"] := by
    decide
  have r0 := runConversion_rejects_before_strategies convertEnv (rootCommandConfig none none)
    "in.pdf" zeroByteFS _ h0
  have r1 := runConversion_rejects_before_strategies convertEnv (rootCommandConfig none none)
    "in.pdf" textFileFS _ h1
  exact ⟨⟨h0, r0.1, r0.2.1⟩, ⟨h1, r1.1, r1.2.1⟩⟩

/-- C15, as stated, fails: for the input path `/` the result is
`/ - converted.pdf`, whose file name is ` - converted.pdf`, not the base name
`/` of the input followed by ` - converted.pdf`. -/
theorem generateOutputFilename_root_loses_base :
    filepathBase "/" = "/" ∧ filepathExt (filepathBase "/") = "" ∧
    stringsTrimSuffix (filepathBase "/") (filepathExt (filepathBase "/")) = "/" ∧
    GenerateOutputFilename "/" = "/ - converted.pdf" ∧
    filepathBase (GenerateOutputFilename "/") = " - converted.pdf" ∧
    filepathBase (GenerateOutputFilename "/") ≠
      stringsTrimSuffix (filepathBase "/") (filepathExt (filepathBase "/")) ++
        " - converted.pdf" := by
  refine ⟨by decide, by decide, by decide, by decide, by decide, by decide⟩

/-- C15, amended: for every input path that is not made of separators only
(its base name is not `/`), `GenerateOutputFilename` returns the join of the
input's directory with the input's base name, its last extension (from the last
dot on, if any) removed, followed by ` - converted.pdf`; the result lies in the
same directory as the input and has that file name.  So `/path/to/document.pdf`
gives `/path/to/document - converted.pdf` and `my.document.v1.pdf` gives
`my.document.v1 - converted.pdf`. -/
theorem generateOutputFilename_same_dir_new_name (inputFile : String)
    (hbase : filepathBase inputFile ≠ "/") :
    (∃ stem ext : String,
      filepathBase inputFile = stem ++ ext ∧
      ext = filepathExt (filepathBase inputFile) ∧
      (ext = "" ∨ ∃ e : String, ext = "." ++ e ∧ '.' ∉ e.data ∧ '/' ∉ e.data) ∧
      GenerateOutputFilename inputFile =
        filepathJoin (filepathDir inputFile) (stem ++ " - converted.pdf") ∧
      filepathBase (GenerateOutputFilename inputFile) = stem ++ " - converted.pdf") ∧
    filepathDir (GenerateOutputFilename inputFile) = filepathDir inputFile ∧
    GenerateOutputFilename "/path/to/document.pdf" = "/path/to/document - converted.pdf" ∧
    GenerateOutputFilename "my.document.v1.pdf" = "my.document.v1 - converted.pdf" ∧
    GenerateOutputFilename "document.pdf" = "document - converted.pdf" := by
  refine ⟨⟨String.mk (stemChars inputFile.data),
      String.mk (extChars (baseChars inputFile.data)), ?_, rfl, ?_, ?_, ?_⟩, ?_,
    by decide, by decide, by decide⟩
  · apply string_eq_of_data
    simp only [filepathBase, String.data_append]
    exact (stemChars_append_ext inputFile.data).symm
  · rcases extChars_shape (baseChars inputFile.data) with h | ⟨e, h, h1, h2⟩
    · left
      apply string_eq_of_data
      simpa using h
    · right
      exact ⟨String.mk e, string_eq_of_data (by simpa using h), h1, h2⟩
  · apply string_eq_of_data
    simp [GenerateOutputFilename, stemChars, filepathJoin, filepathDir, filepathBase,
      filepathExt, stringsTrimSuffix]
  · apply string_eq_of_data
    simp only [filepathBase, generateOutputFilename_data, String.data_append]
    rw [baseChars_genChars]
    have hb : '/' ∉ baseChars inputFile.data := by
      rcases baseChars_shape inputFile.data with h | h
      · exact absurd (string_eq_of_data (by simpa [filepathBase] using h)) hbase
      · exact h
    have hstem : '/' ∉ stemChars inputFile.data :=
      fun h => hb (trimSuffixChars_subset _ _ _ h)
    rw [afterLastSep_of_not_mem _ hstem]
    rfl
  · apply string_eq_of_data
    simp only [filepathDir, generateOutputFilename_data]
    exact dirChars_genChars inputFile.data

/-- The path `/path/to/document.pdf`: directory `/path/to`, file name
`document - converted.pdf`. -/
theorem generateOutputFilename_same_dir_new_name_witness :
    filepathBase "/path/to/document.pdf" ≠ "/" ∧
    filepathBase (GenerateOutputFilename "/path/to/document.pdf") =
      "document - converted.pdf" ∧
    filepathDir (GenerateOutputFilename "/path/to/document.pdf") = "/path/to" ∧
    GenerateOutputFilename "/path/to/document.pdf" = "/path/to/document - converted.pdf" := by
  have h := generateOutputFilename_same_dir_new_name "/path/to/document.pdf" (by decide)
  refine ⟨by decide, by decide, ?_, h.2.2.1⟩
  rw [h.2.1]
  decide

/-- C16: when the two ImageMagick strategies fail and, as they leave the
file system, the input file does not exist or the output file cannot be created,
`ProcessPDF` returns a non-nil error, the one of the final fallback: `failed to
open input file` for a missing input, `failed to create output file` for an
input that exists and an output that cannot be created. -/
theorem processPDF_fails_on_bad_paths (env : Env) (inputFile outputFile : String) (fs : FS) :
    let r1 := CreateMarginsForLetterXpress env inputFile outputFile fs
    let r2 := CreateMarginsWithImageMagick env inputFile outputFile r1.1
    r1.2 ≠ none → r2.2 ≠ none →
    (r2.1 inputFile = none ∨ env.createErr outputFile r2.1 ≠ none) →
    (ProcessPDF env inputFile outputFile fs).2 ≠ none ∧
    (r2.1 inputFile = none →
      (ProcessPDF env inputFile outputFile fs).2 = some (wrapf "failed to open input file"
        (errorf ("open " ++ inputFile ++ ": no such file or directory")))) ∧
    (∀ cause, r2.1 inputFile ≠ none → env.createErr outputFile r2.1 = some cause →
      (ProcessPDF env inputFile outputFile fs).2 =
        some (wrapf "failed to create output file" cause)) := by
  intro r1 r2 h1 h2 hp
  have key : ProcessPDF env inputFile outputFile fs =
      scaleContentWithImport env inputFile outputFile r2.1 := by
    simp only [ProcessPDF, addMarginsWithNUp, CreateMargins]
    rcases h : CreateMarginsForLetterXpress env inputFile outputFile fs with ⟨fs1, _ | e1⟩
    · exact absurd (by simp [r1, h]) h1
    · dsimp only
      rcases h' : CreateMarginsWithImageMagick env inputFile outputFile fs1 with ⟨fs2, _ | e2⟩
      · exact absurd (by simp [r2, r1, h, h']) h2
      · simp [r2, r1, h, h']
  rw [key]
  have hopen : r2.1 inputFile = none →
      (scaleContentWithImport env inputFile outputFile r2.1).2 =
        some (wrapf "failed to open input file"
          (errorf ("open " ++ inputFile ++ ": no such file or directory"))) := by
    intro hin
    simp [scaleContentWithImport, osOpen, hin]
  have hcreate : ∀ cause, r2.1 inputFile ≠ none → env.createErr outputFile r2.1 = some cause →
      (scaleContentWithImport env inputFile outputFile r2.1).2 =
        some (wrapf "failed to create output file" cause) := by
    intro cause hin hce
    obtain ⟨bytes, hb⟩ := Option.ne_none_iff_exists'.mp hin
    simp [scaleContentWithImport, osOpen, osCreate, hb, hce]
  refine ⟨?_, hopen, hcreate⟩
  cases hin : r2.1 inputFile with
  | none => rw [hopen hin]; simp
  | some bytes =>
    rcases hp with hp | hp
    · rw [hin] at hp; simp at hp
    · obtain ⟨cause, hce⟩ := Option.ne_none_iff_exists'.mp hp
      rw [hcreate cause (by simp [hin]) hce]; simp

/-- Without ImageMagick and without the input file `nonexistent.pdf`:
`ProcessPDF` fails to open the input. -/
theorem processPDF_fails_on_bad_paths_witness :
    emptyFS "nonexistent.pdf" = none ∧
    (ProcessPDF noToolsEnv "nonexistent.pdf" "output.pdf" emptyFS).2 ≠ none ∧
    (ProcessPDF noToolsEnv "nonexistent.pdf" "output.pdf" emptyFS).2 =
      some ["failed to open input file", "open nonexistent.pdf: no such file or directory"] := by
  have h := processPDF_fails_on_bad_paths noToolsEnv "nonexistent.pdf" "output.pdf" emptyFS
    (by simp [CreateMarginsForLetterXpress, noToolsEnv])
    (by simp [CreateMarginsWithImageMagick, noToolsEnv])
    (Or.inl rfl)
  exact ⟨rfl, h.1, h.2.1 rfl⟩

/-- C17 (the code departs from it): with `--verbose` alone the configuration
has Verbose = true and LogLevel = `info`, and `setupLogging` sets the level to
info, not debug; whatever Verbose is, a LogLevel of `info` wins. -/
theorem setupLogging_verbose_overridden :
    (rootCommandConfig (some true) none).Verbose = true ∧
    (rootCommandConfig (some true) none).LogLevel = "info" ∧
    setupLogging (rootCommandConfig (some true) none) = Level.InfoLevel ∧
    setupLogging (rootCommandConfig (some true) none) ≠ Level.DebugLevel ∧
    ∀ (i o : String) (verbose : Bool),
      setupLogging { InputFile := i, OutputFile := o, Verbose := verbose, LogLevel := "info" } =
        Level.InfoLevel := by
  refine ⟨rfl, rfl, by decide, by decide, ?_⟩
  intro i o verbose
  have hp : ParseLevel "info" = .ok Level.InfoLevel := rfl
  simp only [setupLogging, hp]
  rw [if_pos (by decide)]

/-- C18: on an array of at least four elements `extractMediaBoxValues`
succeeds exactly when each of the first four elements is a Float or an Integer,
and then returns their values in order, whatever follows; otherwise its error
names the first of x0, y0, x1, y1 that is neither, and the four values are 0. -/
theorem extractMediaBoxValues_first_four (e0 e1 e2 e3 : Object) (more : List Object) :
    (∀ o v, numericValue o = some v ↔ (o = .Float v ∨ ∃ n : ℤ, o = .Integer n ∧ v = (n : ℚ))) ∧
    ((∃ x0 y0 x1 y1,
        extractMediaBoxValues (e0 :: e1 :: e2 :: e3 :: more) = some (x0, y0, x1, y1, none)) ↔
      ((numericValue e0).isSome ∧ (numericValue e1).isSome ∧ (numericValue e2).isSome ∧
        (numericValue e3).isSome)) ∧
    (∀ x0 y0 x1 y1, numericValue e0 = some x0 → numericValue e1 = some y0 →
      numericValue e2 = some x1 → numericValue e3 = some y1 →
      extractMediaBoxValues (e0 :: e1 :: e2 :: e3 :: more) = some (x0, y0, x1, y1, none)) ∧
    (numericValue e0 = none →
      extractMediaBoxValues (e0 :: e1 :: e2 :: e3 :: more) =
        some (0, 0, 0, 0, some ["invalid x0 value"])) ∧
    ((numericValue e0).isSome → numericValue e1 = none →
      extractMediaBoxValues (e0 :: e1 :: e2 :: e3 :: more) =
        some (0, 0, 0, 0, some ["invalid y0 value"])) ∧
    ((numericValue e0).isSome → (numericValue e1).isSome → numericValue e2 = none →
      extractMediaBoxValues (e0 :: e1 :: e2 :: e3 :: more) =
        some (0, 0, 0, 0, some ["invalid x1 value"])) ∧
    ((numericValue e0).isSome → (numericValue e1).isSome → (numericValue e2).isSome →
      numericValue e3 = none →
      extractMediaBoxValues (e0 :: e1 :: e2 :: e3 :: more) =
        some (0, 0, 0, 0, some ["invalid y1 value"])) := by
  refine ⟨?_, ?_, ?_, ?_, ?_, ?_, ?_⟩
  · intro o v
    cases o <;> simp [numericValue, eq_comm]
  · cases h0 : numericValue e0 <;> cases h1 : numericValue e1 <;>
      cases h2 : numericValue e2 <;> cases h3 : numericValue e3 <;>
      simp [extractMediaBoxValues, h0, h1, h2, h3, errorf]
  · intro x0 y0 x1 y1 h0 h1 h2 h3
    simp [extractMediaBoxValues, h0, h1, h2, h3]
  · intro h0
    simp [extractMediaBoxValues, h0, errorf]
  · intro h0 h1
    obtain ⟨x0, h0⟩ := Option.isSome_iff_exists.mp h0
    simp [extractMediaBoxValues, h0, h1, errorf]
  · intro h0 h1 h2
    obtain ⟨x0, h0⟩ := Option.isSome_iff_exists.mp h0
    obtain ⟨y0, h1⟩ := Option.isSome_iff_exists.mp h1
    simp [extractMediaBoxValues, h0, h1, h2, errorf]
  · intro h0 h1 h2 h3
    obtain ⟨x0, h0⟩ := Option.isSome_iff_exists.mp h0
    obtain ⟨y0, h1⟩ := Option.isSome_iff_exists.mp h1
    obtain ⟨x1, h2⟩ := Option.isSome_iff_exists.mp h2
    simp [extractMediaBoxValues, h0, h1, h2, h3, errorf]

/-- C19: the generated output path never coincides with the input: its base
name differs from the input's base name, so the two paths differ, creating the
output file does not touch the input file, and `runConversion` hands
`ProcessPDF` an output path other than the input; the generated name always has
the extension `.pdf`. -/
theorem generateOutputFilename_differs_from_input (inputFile : String) :
    filepathBase (GenerateOutputFilename inputFile) ≠ filepathBase inputFile ∧
    GenerateOutputFilename inputFile ≠ inputFile ∧
    filepathExt (GenerateOutputFilename inputFile) = ".pdf" ∧
    (∀ (env : Env) (fs : FS),
      (osCreate env fs (GenerateOutputFilename inputFile)).1 inputFile = fs inputFile) ∧
    (∀ (env : Env) (config : Config) (fs : FS), ValidateInputFile fs inputFile = none →
      (runConversion env config inputFile fs).config.InputFile = inputFile ∧
      (runConversion env config inputFile fs).config.OutputFile =
        GenerateOutputFilename inputFile ∧
      (runConversion env config inputFile fs).config.OutputFile ≠
        (runConversion env config inputFile fs).config.InputFile) := by
  have hbase : filepathBase (GenerateOutputFilename inputFile) ≠ filepathBase inputFile := by
    intro h
    have hd := congrArg String.data h
    simp only [filepathBase, generateOutputFilename_data] at hd
    exact baseChars_genChars_ne inputFile.data hd
  have hne : GenerateOutputFilename inputFile ≠ inputFile := fun h => hbase (by rw [h])
  refine ⟨hbase, hne, ?_, ?_, ?_⟩
  · apply string_eq_of_data
    simp only [filepathExt, generateOutputFilename_data]
    exact extChars_genChars inputFile.data
  · intro env fs
    unfold osCreate
    split
    · rfl
    · simp only [FS.write]
      rw [if_neg (fun h => hne h.symm)]
  · intro env config fs hv
    have hrun : (runConversion env config inputFile fs).config =
        { config with InputFile := inputFile,
                      OutputFile := GenerateOutputFilename inputFile } := by
      simp only [runConversion, hv]
      split
      · split <;> rfl
      · rfl
    rw [hrun]
    exact ⟨rfl, rfl, hne⟩

end Pdf2LetterExpress
